import Mathlib

set_option maxRecDepth 16384

/-!
Verification development for the aesqlite repository (src/SSqlite.py and
src/AESqlite.py): a shallow embedding of the typed encode/decode pipeline,
the toy cipher `Abc`, the schema-driven type coercion, and the CRUD record
gateway, together with theorems settling the specification claims.

Modelling conventions:
* A Python string is a list of Unicode code points (`PyStr := List Nat`);
  a Python `bytes` object is a list of naturals below 256.
* Python exceptions are modelled by `Option` (for pure helpers) or by
  `Except PyErr` (for the database operations).
* The SQLite engine itself is an external collaborator (spec section 6);
  its operations (SELECT / INSERT / DELETE / UPDATE with an AND-equality
  predicate, rowcount feedback, `no such table` / `no such column` errors)
  are modelled semantically on an in-memory table state.
-/

/-- A Python string, as its list of Unicode code points. -/
abbrev PyStr := List Nat

/-- Build a `PyStr` from Lean characters (used to write concrete literals). -/
def strL (l : List Char) : PyStr := l.map Char.toNat

/-! ### base64 (model of the stdlib `base64.b64encode` / `base64.b64decode`)

`Abc.encrypt`/`Abc.decrypt` and `_encode`/`_decode` of both source files wrap
their payloads in standard base64. 61 is the code point of the padding
character. -/

/-- The base64 alphabet: index 0..63 to code point (A..Z, a..z, 0..9, plus, slash). -/
def b64Char (i : Nat) : Nat :=
  if i < 26 then 65 + i
  else if i < 52 then 97 + (i - 26)
  else if i < 62 then 48 + (i - 52)
  else if i = 62 then 43 else 47

/-- Inverse of the base64 alphabet; `none` on a non-alphabet character. -/
def b64Index (c : Nat) : Option Nat :=
  if 65 ≤ c ∧ c ≤ 90 then some (c - 65)
  else if 97 ≤ c ∧ c ≤ 122 then some (c - 97 + 26)
  else if 48 ≤ c ∧ c ≤ 57 then some (c - 48 + 52)
  else if c = 43 then some 62
  else if c = 47 then some 63
  else none

/-- base64 encoding of a byte list (groups of three bytes to four characters,
with padding on a trailing group of one or two bytes). -/
def b64encode : List Nat → List Nat
  | [] => []
  | [b0] => [b64Char (b0 / 4), b64Char (b0 % 4 * 16), 61, 61]
  | [b0, b1] => [b64Char (b0 / 4), b64Char (b0 % 4 * 16 + b1 / 16), b64Char (b1 % 16 * 4), 61]
  | b0 :: b1 :: b2 :: rest =>
      b64Char (b0 / 4) :: b64Char (b0 % 4 * 16 + b1 / 16) ::
      b64Char (b1 % 16 * 4 + b2 / 64) :: b64Char (b2 % 64) :: b64encode rest

/-- base64 decoding; `none` on input that is not well-formed base64. -/
def b64decode : List Nat → Option (List Nat)
  | [] => some []
  | c0 :: c1 :: c2 :: c3 :: rest =>
    match b64Index c0, b64Index c1 with
    | some i0, some i1 =>
      if c2 = 61 then
        if c3 = 61 ∧ rest = [] ∧ i1 % 16 = 0 then some [i0 * 4 + i1 / 16] else none
      else
        match b64Index c2 with
        | some i2 =>
          if c3 = 61 then
            if rest = [] ∧ i2 % 4 = 0 then
              some [i0 * 4 + i1 / 16, i1 % 16 * 16 + i2 / 4]
            else none
          else
            match b64Index c3 with
            | some i3 =>
                (b64decode rest).map
                  (fun tl => (i0 * 4 + i1 / 16) :: (i1 % 16 * 16 + i2 / 4) :: (i2 % 4 * 64 + i3) :: tl)
            | none => none
        | none => none
    | _, _ => none
  | _ :: _ => none

theorem b64Index_b64Char : ∀ i < 64, b64Index (b64Char i) = some i := by decide

theorem b64Char_ne_pad : ∀ i < 64, b64Char i ≠ 61 := by decide

theorem b64decode_encode : ∀ bs : List Nat, (∀ b ∈ bs, b < 256) →
    b64decode (b64encode bs) = some bs
  | [], _ => rfl
  | [b0], h => by
      have h0 : b0 < 256 := h b0 (by simp)
      have e0 := b64Index_b64Char (b0 / 4) (by omega)
      have e1 := b64Index_b64Char (b0 % 4 * 16) (by omega)
      simp only [b64encode, b64decode, e0, e1, if_true, true_and]
      rw [if_pos (show b0 % 4 * 16 % 16 = 0 by omega)]
      simp only [Option.some.injEq, List.cons.injEq, and_true]
      omega
  | [b0, b1], h => by
      have h0 : b0 < 256 := h b0 (by simp)
      have h1 : b1 < 256 := h b1 (by simp)
      have e0 := b64Index_b64Char (b0 / 4) (by omega)
      have e1 := b64Index_b64Char (b0 % 4 * 16 + b1 / 16) (by omega)
      have e2 := b64Index_b64Char (b1 % 16 * 4) (by omega)
      have n2 := b64Char_ne_pad (b1 % 16 * 4) (by omega)
      simp only [b64encode, b64decode, e0, e1, e2, if_true, true_and]
      rw [if_neg n2]
      rw [if_pos (show b1 % 16 * 4 % 4 = 0 by omega)]
      simp only [Option.some.injEq, List.cons.injEq, and_true]
      exact ⟨by omega, by omega⟩
  | b0 :: b1 :: b2 :: rest, h => by
      have h0 : b0 < 256 := h b0 (by simp)
      have h1 : b1 < 256 := h b1 (by simp)
      have h2 : b2 < 256 := h b2 (by simp)
      have e0 := b64Index_b64Char (b0 / 4) (by omega)
      have e1 := b64Index_b64Char (b0 % 4 * 16 + b1 / 16) (by omega)
      have e2 := b64Index_b64Char (b1 % 16 * 4 + b2 / 64) (by omega)
      have e3 := b64Index_b64Char (b2 % 64) (by omega)
      have n2 := b64Char_ne_pad (b1 % 16 * 4 + b2 / 64) (by omega)
      have n3 := b64Char_ne_pad (b2 % 64) (by omega)
      have ih := b64decode_encode rest (fun b hb => h b (by simp [hb]))
      simp only [b64encode, b64decode, e0, e1, e2, e3, if_true, true_and]
      rw [if_neg n2, if_neg n3, ih]
      simp only [Option.map_some', Option.some.injEq, List.cons.injEq, and_true]
      omega

theorem b64encode_ne_nil : ∀ bs : List Nat, bs ≠ [] → b64encode bs ≠ []
  | [], h => absurd rfl h
  | [_], _ => by simp [b64encode]
  | [_, _], _ => by simp [b64encode]
  | _ :: _ :: _ :: _, _ => by simp [b64encode]

/-! ### UTF-8 (model of the stdlib `str.encode` / `bytes.decode`)

`str.encode()` rejects lone surrogates (and `chr` rejects values at or above
1114112), which is modelled by `utf8EncodeChar` returning `none`; `bytes.decode()`
is the strict UTF-8 decoder. -/

/-- UTF-8 encoding of one code point; `none` for surrogates or out-of-range values. -/
def utf8EncodeChar (c : Nat) : Option (List Nat) :=
  if c < 128 then some [c]
  else if c < 2048 then some [192 + c / 64, 128 + c % 64]
  else if c < 65536 then
    if 55296 ≤ c ∧ c < 57344 then none
    else some [224 + c / 4096, 128 + c / 64 % 64, 128 + c % 64]
  else if c < 1114112 then
    some [240 + c / 262144, 128 + c / 4096 % 64, 128 + c / 64 % 64, 128 + c % 64]
  else none

/-- UTF-8 encoding of a string (list of code points). -/
def utf8Encode : List Nat → Option (List Nat)
  | [] => some []
  | c :: cs => do
      let b ← utf8EncodeChar c
      let rest ← utf8Encode cs
      pure (b ++ rest)

/-- Is `b` a UTF-8 continuation byte? -/
def utf8ContB (b : Nat) : Bool := decide (128 ≤ b ∧ b < 192)

/-- Code point of a two-byte UTF-8 sequence. -/
def dec2 (b b1 : Nat) : Nat := (b - 192) * 64 + (b1 - 128)

/-- Code point of a three-byte UTF-8 sequence. -/
def dec3 (b b1 b2 : Nat) : Nat := (b - 224) * 4096 + (b1 - 128) * 64 + (b2 - 128)

/-- Code point of a four-byte UTF-8 sequence. -/
def dec4 (b b1 b2 b3 : Nat) : Nat :=
  (b - 240) * 262144 + (b1 - 128) * 4096 + (b2 - 128) * 64 + (b3 - 128)

/-- Valid (non-overlong, non-surrogate) range for a three-byte sequence. -/
def okRange3 (c : Nat) : Bool := decide (2048 ≤ c ∧ (c < 55296 ∨ 57344 ≤ c))

/-- Valid (non-overlong, in-range) range for a four-byte sequence. -/
def okRange4 (c : Nat) : Bool := decide (65536 ≤ c ∧ c < 1114112)

/-- Strict UTF-8 decoding, with fuel (the fuel only bounds the recursion
depth; every step consumes at least one byte, so fuel = input length
suffices). Rejects overlong forms, surrogates and out-of-range leaders, as
CPython's strict decoder does. -/
def utf8DecodeF : Nat → List Nat → Option (List Nat)
  | _, [] => some []
  | 0, _ :: _ => none
  | f + 1, b :: bs =>
    if b < 128 then (utf8DecodeF f bs).map (b :: ·)
    else if b < 194 then none
    else if b < 224 then
      match bs with
      | b1 :: bs2 => if utf8ContB b1 then (utf8DecodeF f bs2).map (dec2 b b1 :: ·) else none
      | [] => none
    else if b < 240 then
      match bs with
      | b1 :: b2 :: bs3 =>
        if utf8ContB b1 && utf8ContB b2 && okRange3 (dec3 b b1 b2) then
          (utf8DecodeF f bs3).map (dec3 b b1 b2 :: ·)
        else none
      | _ => none
    else if b < 245 then
      match bs with
      | b1 :: b2 :: b3 :: bs4 =>
        if utf8ContB b1 && utf8ContB b2 && utf8ContB b3 && okRange4 (dec4 b b1 b2 b3) then
          (utf8DecodeF f bs4).map (dec4 b b1 b2 b3 :: ·)
        else none
      | _ => none
    else none

/-- Strict UTF-8 decoding of a byte list (model of `bytes.decode()`). -/
def utf8Decode (bs : List Nat) : Option (List Nat) := utf8DecodeF bs.length bs

theorem utf8DecodeF_encode : ∀ cs bs f, utf8Encode cs = some bs → bs.length ≤ f →
    utf8DecodeF f bs = some cs
  | [], bs, f, h, _ => by
      simp only [utf8Encode, Option.some.injEq] at h
      subst h
      cases f <;> rfl
  | c :: cs, bs, f, h, hf => by
      simp only [utf8Encode, bind, Option.bind] at h
      cases hc : utf8EncodeChar c with
      | none => rw [hc] at h; exact absurd h (by simp)
      | some bytes => ?_
      rw [hc] at h
      cases hr : utf8Encode cs with
      | none => rw [hr] at h; exact absurd h (by simp)
      | some rest => ?_
      rw [hr] at h
      simp only [pure, Option.some.injEq] at h
      subst h
      unfold utf8EncodeChar at hc
      split at hc
      · rename_i h1
        cases hc
        rw [List.cons_append, List.nil_append] at hf ⊢
        cases f with
        | zero => simp at hf
        | succ f => ?_
        simp only [utf8DecodeF, if_pos h1]
        rw [utf8DecodeF_encode cs rest f hr (by simp at hf; omega)]
        rfl
      · split at hc
        · rename_i h1 h2
          cases hc
          rw [List.cons_append, List.cons_append, List.nil_append] at hf ⊢
          cases f with
          | zero => simp at hf
          | succ f => ?_
          simp only [utf8DecodeF]
          rw [if_neg (by omega), if_neg (by omega), if_pos (by omega)]
          rw [if_pos (show utf8ContB (128 + c % 64) = true by
            simp only [utf8ContB, decide_eq_true_eq]; omega)]
          rw [utf8DecodeF_encode cs rest f hr (by simp at hf; omega)]
          have e : dec2 (192 + c / 64) (128 + c % 64) = c := by unfold dec2; omega
          rw [e]
          rfl
        · split at hc
          · split at hc
            · exact absurd hc (by simp)
            · rename_i h1 h2 h3 h4
              cases hc
              rw [List.cons_append, List.cons_append, List.cons_append,
                List.nil_append] at hf ⊢
              cases f with
              | zero => simp at hf
              | succ f => ?_
              simp only [utf8DecodeF]
              rw [if_neg (by omega), if_neg (by omega), if_neg (by omega), if_pos (by omega)]
              have e : dec3 (224 + c / 4096) (128 + c / 64 % 64) (128 + c % 64) = c := by
                unfold dec3; omega
              rw [if_pos (by
                rw [e]
                simp only [utf8ContB, okRange3, Bool.and_eq_true, decide_eq_true_eq]
                omega)]
              rw [utf8DecodeF_encode cs rest f hr (by simp at hf; omega), e]
              rfl
          · split at hc
            · rename_i h1 h2 h3 h4
              cases hc
              rw [List.cons_append, List.cons_append, List.cons_append, List.cons_append,
                List.nil_append] at hf ⊢
              cases f with
              | zero => simp at hf
              | succ f => ?_
              simp only [utf8DecodeF]
              rw [if_neg (by omega), if_neg (by omega), if_neg (by omega), if_neg (by omega),
                if_pos (by omega)]
              have e : dec4 (240 + c / 262144) (128 + c / 4096 % 64) (128 + c / 64 % 64)
                  (128 + c % 64) = c := by unfold dec4; omega
              rw [if_pos (by
                rw [e]
                simp only [utf8ContB, okRange4, Bool.and_eq_true, decide_eq_true_eq]
                omega)]
              rw [utf8DecodeF_encode cs rest f hr (by simp at hf; omega), e]
              rfl
            · exact absurd hc (by simp)

theorem utf8Decode_encode (cs bs : List Nat) (h : utf8Encode cs = some bs) :
    utf8Decode bs = some cs :=
  utf8DecodeF_encode cs bs bs.length h (le_refl _)

theorem utf8EncodeChar_lt256 (c : Nat) (bytes : List Nat)
    (h : utf8EncodeChar c = some bytes) : ∀ b ∈ bytes, b < 256 := by
  unfold utf8EncodeChar at h
  split at h
  · cases h; intro b hb; simp at hb; omega
  · split at h
    · cases h; intro b hb; simp at hb; omega
    · split at h
      · split at h
        · exact absurd h (by simp)
        · cases h; intro b hb; simp at hb; rename_i h1 h2 h3 _; omega
      · split at h
        · cases h; intro b hb; simp at hb; rename_i h1 h2 h3 h4; omega
        · exact absurd h (by simp)

theorem utf8Encode_lt256 : ∀ cs bs : List Nat, utf8Encode cs = some bs →
    ∀ b ∈ bs, b < 256
  | [], bs, h => by simp only [utf8Encode, Option.some.injEq] at h; subst h; simp
  | c :: cs, bs, h => by
      simp only [utf8Encode, bind, Option.bind] at h
      cases hc : utf8EncodeChar c with
      | none => rw [hc] at h; exact absurd h (by simp)
      | some b => ?_
      rw [hc] at h
      cases hr : utf8Encode cs with
      | none => rw [hr] at h; exact absurd h (by simp)
      | some rest => ?_
      rw [hr] at h
      simp only [pure, Option.some.injEq] at h
      subst h
      intro x hx
      rcases List.mem_append.mp hx with hx | hx
      · exact utf8EncodeChar_lt256 c b hc x hx
      · exact utf8Encode_lt256 cs rest hr x hx

theorem utf8Encode_ascii : ∀ s : List Nat, (∀ c ∈ s, c < 128) → utf8Encode s = some s
  | [], _ => rfl
  | c :: cs, h => by
      have hc : c < 128 := h c (by simp)
      have ih := utf8Encode_ascii cs (fun x hx => h x (by simp [hx]))
      simp [utf8Encode, utf8EncodeChar, if_pos hc, ih, bind, Option.bind, pure]

theorem utf8Encode_ne_nil : ∀ c cs bs, utf8Encode (c :: cs) = some bs → bs ≠ [] := by
  intro c cs bs h
  simp only [utf8Encode, bind, Option.bind] at h
  cases hc : utf8EncodeChar c with
  | none => rw [hc] at h; exact absurd h (by simp)
  | some b => ?_
  rw [hc] at h
  cases hr : utf8Encode cs with
  | none => rw [hr] at h; exact absurd h (by simp)
  | some rest => ?_
  rw [hr] at h
  simp only [pure, Option.some.injEq] at h
  subst h
  have hb : b ≠ [] := by
    unfold utf8EncodeChar at hc
    split at hc
    · cases hc; simp
    · split at hc
      · cases hc; simp
      · split at hc
        · split at hc
          · exact absurd hc (by simp)
          · cases hc; simp
        · split at hc
          · cases hc; simp
          · exact absurd hc (by simp)
  cases b with
  | nil => exact absurd rfl hb
  | cons x xs => simp

/-! ### Python value model

The logical values flowing through the gateway. A Python float is modelled
by its `repr` string (binary64 shortest-repr formatting is interpreter
internal and no claim distinguishes float values beyond their repr); a
`datetime` value records which of the two source construction paths
(`fromtimestamp` / `fromisoformat`) produced it together with its argument. -/

/-- Decimal digits of a natural number (fuel-based so that it reduces). -/
def natDigitsAux : Nat → Nat → PyStr
  | 0, _ => []
  | fuel + 1, n => if n < 10 then [48 + n] else natDigitsAux fuel (n / 10) ++ [48 + n % 10]

/-- Decimal digit string of a natural number. -/
def natDigits (n : Nat) : PyStr := natDigitsAux (n + 1) n

/-- Model of `str()` of a Python int (45 is the minus sign). -/
def intRepr (n : Int) : PyStr :=
  if n < 0 then 45 :: natDigits n.natAbs else natDigits n.natAbs

/-- A `datetime.datetime` value, tagged by the construction path used by
`SqliteDatabase.to_datetime`. -/
inductive PyDatetime
  | fromTimestamp (rep : PyStr)
  | fromIso (rep : PyStr)
deriving DecidableEq

/-- A Python logical value at the gateway boundary. -/
inductive PyValue
  | int (n : Int)
  | float (rep : PyStr)
  | bool (b : Bool)
  | str (s : PyStr)
  | datetime (d : PyDatetime)
deriving DecidableEq

/-- Model of `str(v)`: the string representation a value is coerced to by `_encode`. -/
def pyStr : PyValue → PyStr
  | .int n => intRepr n
  | .float rep => rep
  | .bool b => if b then strL ['T', 'r', 'u', 'e'] else strL ['F', 'a', 'l', 's', 'e']
  | .str s => s
  | .datetime (.fromTimestamp rep) => rep
  | .datetime (.fromIso rep) => rep

/-! ### The toy cipher (`class Abc` of src/SSqlite.py)

`Abc.__init__` derives the key as `sha512(key.encode()).hexdigest()`, a
128-character hexadecimal string. The hash is stdlib; the model takes the
derived key string as the field of the structure. Both `encrypt` and
`decrypt` extend/truncate the key to the message length by the same loop:
repeat (once per message character): if the key is shorter than the message,
append its own reverse, otherwise truncate it to the message length. -/

structure Abc where
  key : PyStr
deriving DecidableEq

/-- One iteration of the key-extension loop body
`data[1] = [data[1][0:len(data[0])], data[1] + data[1][::-1]][len(data[1]) < len(data[0])]`. -/
def keyStep (n : Nat) (k : PyStr) : PyStr :=
  if k.length < n then k ++ k.reverse else k.take n

def keyStreamGo (n : Nat) : Nat → PyStr → PyStr
  | 0, k => k
  | j + 1, k => keyStreamGo n j (keyStep n k)

/-- The key stream used against a message of length `n`: the extension loop
body applied `n` times (the loop runs once per message character). -/
def keyStream (key : PyStr) (n : Nat) : PyStr := keyStreamGo n n key

theorem keyStreamGo_add (n a b : Nat) : ∀ k, keyStreamGo n (a + b) k = keyStreamGo n a (keyStreamGo n b k) := by
  induction b with
  | zero => intro k; rfl
  | succ b ih =>
      intro k
      have : a + (b + 1) = (a + b) + 1 := by omega
      rw [this]
      show keyStreamGo n (a + b) (keyStep n k) = _
      rw [ih (keyStep n k)]
      rfl

theorem keyStreamGo_ge (n : Nat) (hn : 1 ≤ n) :
    ∀ j k, k ≠ [] → min n (2 ^ j * k.length) ≤ (keyStreamGo n j k).length := by
  intro j
  induction j with
  | zero =>
      intro k hk
      simp only [keyStreamGo, pow_zero, one_mul]
      exact Nat.min_le_right _ _
  | succ j ih =>
      intro k hk
      show min n (2 ^ (j + 1) * k.length) ≤ (keyStreamGo n j (keyStep n k)).length
      by_cases hlt : k.length < n
      · have hstep : keyStep n k = k ++ k.reverse := if_pos hlt
        have hne : k ++ k.reverse ≠ [] := by
          intro hcon
          exact hk (List.append_eq_nil.mp hcon).1
        have := ih (k ++ k.reverse) hne
        rw [hstep]
        have hlen : (k ++ k.reverse).length = 2 * k.length := by
          simp [List.length_append, List.length_reverse]; omega
        rw [hlen] at this
        have harith : 2 ^ (j + 1) * k.length = 2 ^ j * (2 * k.length) := by ring
        rw [harith]
        exact this
      · have hstep : keyStep n k = k.take n := if_neg hlt
        have hlen : (k.take n).length = n := by
          simp [List.length_take]; omega
        have hne : k.take n ≠ [] := by
          intro hcon
          have := congrArg List.length hcon
          rw [hlen] at this
          simp at this
          omega
        have := ih (k.take n) hne
        rw [hlen] at this
        have hge : n ≤ 2 ^ j * n := Nat.le_mul_of_pos_left n (Nat.pos_pow_of_pos j (by omega))
        have h1 : min n (2 ^ j * n) = n := Nat.min_eq_left hge
        rw [hstep]
        rw [h1] at this
        exact le_trans (Nat.min_le_left _ _) this

theorem keyStream_length (key : PyStr) (n : Nat) (hk : key ≠ []) (hn : 1 ≤ n) :
    (keyStream key n).length = n := by
  have hsplit : keyStream key n = keyStreamGo n 1 (keyStreamGo n (n - 1) key) := by
    unfold keyStream
    rw [← keyStreamGo_add n 1 (n - 1) key]
    congr 1
    omega
  have hkl : 1 ≤ key.length := by
    cases key with
    | nil => exact absurd rfl hk
    | cons a l => simp
  have hge : n ≤ 2 ^ (n - 1) * key.length := by
    have h2 : n - 1 < 2 ^ (n - 1) := Nat.lt_two_pow (n - 1)
    have : n ≤ 2 ^ (n - 1) := by omega
    calc n ≤ 2 ^ (n - 1) := this
    _ = 2 ^ (n - 1) * 1 := by ring
    _ ≤ 2 ^ (n - 1) * key.length := Nat.mul_le_mul_left _ hkl
  have hmid : n ≤ (keyStreamGo n (n - 1) key).length := by
    have := keyStreamGo_ge n hn (n - 1) key hk
    rw [Nat.min_eq_left hge] at this
    exact this
  rw [hsplit]
  show (keyStep n (keyStreamGo n (n - 1) key)).length = n
  unfold keyStep
  rw [if_neg (by omega)]
  simp [List.length_take]
  omega

/-- The encryption comprehension `data[0][x] + data[1][x] * 27` over all
message positions. -/
def scrambleWith (key msg : PyStr) : List Nat :=
  (List.range msg.length).map
    (fun i => msg.getD i 0 + 27 * (keyStream key msg.length).getD i 0)

/-- The decryption comprehension `abs(data[0][x] - 27 * data[1][x])` over all
positions of the recovered scrambled string. -/
def unscrambleWith (key : PyStr) (cs : List Nat) : PyStr :=
  (List.range cs.length).map
    (fun i => ((cs.getD i 0 : Int) - 27 * ((keyStream key cs.length).getD i 0 : Int)).natAbs)

/-- Model of `Abc.encrypt`: asserts a non-empty message, scrambles character `i` into
code point `message[i] + 27 * keystream[i]`, joins via `chr` and encodes the
result in UTF-8 (`chr` rejecting out-of-range values and `.encode()`
rejecting surrogates are both modelled by `none`). -/
def Abc.encrypt (a : Abc) (message : PyStr) : Option (List Nat) :=
  if message.isEmpty then none
  else utf8Encode (scrambleWith a.key message)

/-- Model of `Abc.decrypt`: asserts a non-empty input, base64-decodes it, UTF-8
decodes the bytes, and recovers character `i` as
`abs(scrambled[i] - 27 * keystream[i])`. -/
def Abc.decrypt (a : Abc) (message : PyStr) : Option PyStr :=
  if message.isEmpty then none
  else do
    let bytes ← b64decode message
    let cs ← utf8Decode bytes
    pure (unscrambleWith a.key cs)

/-- The configured data mode of a database handle; the secure mode carries
its `Abc` cipher instance. -/
inductive DataMode
  | default
  | b64
  | secure (abc : Abc)
deriving DecidableEq

/-- Model of `SqliteDatabase._encode` of src/SSqlite.py: secure mode encrypts
`str(data)` and wraps the result in base64; b64 mode base64-encodes the
UTF-8 bytes of `str(data)`; default mode returns the value unchanged. -/
def mEncode (m : DataMode) (v : PyValue) : Option PyValue :=
  match m with
  | .secure a => (a.encrypt (pyStr v)).map (fun bs => .str (b64encode bs))
  | .b64 => (utf8Encode (pyStr v)).map (fun bs => .str (b64encode bs))
  | .default => some v

/-- Model of `SqliteDatabase._decode` of src/SSqlite.py: secure mode runs
`Abc.decrypt`; b64 mode base64-decodes and then ASCII-decodes (failing on
any byte at or above 128); default mode returns the value unchanged.
A non-string input in secure/b64 mode raises (`none`). -/
def mDecode (m : DataMode) (v : PyValue) : Option PyValue :=
  match m, v with
  | .secure a, .str s => (a.decrypt s).map .str
  | .secure _, _ => none
  | .b64, .str s => (b64decode s).bind (fun bs => if bs.all (· < 128) then some (.str bs) else none)
  | .b64, _ => none
  | .default, v => some v

/-- Decode after encode, under one data mode. -/
def roundTrip (m : DataMode) (v : PyValue) : Option PyValue := (mEncode m v).bind (mDecode m)

/-- A code point accepted by `chr` followed by `.encode()`: in range and not
a surrogate. -/
def validScalar (c : Nat) : Prop := c < 1114112 ∧ (c < 55296 ∨ 57344 ≤ c)

instance (c : Nat) : Decidable (validScalar c) := by unfold validScalar; infer_instance

theorem utf8EncodeChar_total (c : Nat) (h : validScalar c) :
    ∃ bs, utf8EncodeChar c = some bs := by
  obtain ⟨h1, h2⟩ := h
  unfold utf8EncodeChar
  by_cases c1 : c < 128
  · exact ⟨_, by rw [if_pos c1]⟩
  · by_cases c2 : c < 2048
    · exact ⟨_, by rw [if_neg c1, if_pos c2]⟩
    · by_cases c3 : c < 65536
      · refine ⟨_, by rw [if_neg c1, if_neg c2, if_pos c3, if_neg (by omega)]⟩
      · exact ⟨_, by rw [if_neg c1, if_neg c2, if_neg c3, if_pos (by omega)]⟩

theorem utf8Encode_total : ∀ cs : List Nat, (∀ c ∈ cs, validScalar c) →
    ∃ bs, utf8Encode cs = some bs
  | [], _ => ⟨[], rfl⟩
  | c :: cs, h => by
      obtain ⟨b, hb⟩ := utf8EncodeChar_total c (h c (by simp))
      obtain ⟨rest, hrest⟩ := utf8Encode_total cs (fun x hx => h x (by simp [hx]))
      exact ⟨b ++ rest, by simp [utf8Encode, hb, hrest, bind, Option.bind, pure]⟩

theorem getD_map_range (f : Nat → Nat) (n i : Nat) (h : i < n) :
    ((List.range n).map f).getD i 0 = f i := by
  rw [List.getD_eq_getElem?_getD]
  rw [List.getElem?_map]
  rw [List.getElem?_range h]
  rfl

theorem getD_range_self : ∀ (l : List Nat) (d : Nat),
    (List.range l.length).map (fun i => l.getD i d) = l
  | [], _ => rfl
  | a :: l, d => by
      rw [List.length_cons, List.range_succ_eq_map, List.map_cons, List.map_map]
      simp only [Function.comp_def, Nat.succ_eq_add_one, List.getD_cons_succ,
        List.getD_cons_zero]
      rw [getD_range_self l d]

theorem scrambleWith_length (key msg : PyStr) : (scrambleWith key msg).length = msg.length := by
  simp [scrambleWith]

theorem scrambleWith_ne_nil (key msg : PyStr) (hm : msg ≠ []) : scrambleWith key msg ≠ [] := by
  intro hcon
  have := congrArg List.length hcon
  rw [scrambleWith_length] at this
  simp at this
  exact hm this

theorem isEmpty_false_of_ne_nil (l : PyStr) (h : l ≠ []) : l.isEmpty = false := by
  cases l with
  | nil => exact absurd rfl h
  | cons a l => rfl

/-- A decrypt call on the base64 wrapping of any successfully produced
ciphertext succeeds and returns the unscrambling under the decrypting key. -/
theorem decrypt_of_bytes (a : Abc) (cs bytes : List Nat) (hne : cs ≠ [])
    (hbytes : utf8Encode cs = some bytes) :
    a.decrypt (b64encode bytes) = some (unscrambleWith a.key cs) := by
  have hbne : bytes ≠ [] := by
    cases cs with
    | nil => exact absurd rfl hne
    | cons c cs => exact utf8Encode_ne_nil c cs bytes hbytes
  have hb64ne : b64encode bytes ≠ [] := b64encode_ne_nil bytes hbne
  unfold Abc.decrypt
  rw [isEmpty_false_of_ne_nil _ hb64ne]
  simp only [Bool.false_eq_true, if_false]
  rw [b64decode_encode bytes (utf8Encode_lt256 cs bytes hbytes)]
  simp only [bind, Option.bind]
  rw [utf8Decode_encode cs bytes hbytes]
  rfl

/-- Unscrambling inverts scrambling when both use the same key. -/
theorem unscramble_scramble (key msg : PyStr) :
    unscrambleWith key (scrambleWith key msg) = msg := by
  unfold unscrambleWith
  rw [scrambleWith_length]
  have hpt : ∀ i ∈ List.range msg.length,
      (((scrambleWith key msg).getD i 0 : Int) -
        27 * ((keyStream key msg.length).getD i 0 : Int)).natAbs = msg.getD i 0 := by
    intro i hi
    have hi' := List.mem_range.mp hi
    unfold scrambleWith
    rw [getD_map_range _ _ _ hi']
    have : ((msg.getD i 0 + 27 * (keyStream key msg.length).getD i 0 : Nat) : Int) -
        27 * ((keyStream key msg.length).getD i 0 : Nat) = (msg.getD i 0 : Int) := by
      push_cast
      ring
    rw [this, Int.natAbs_ofNat]
  rw [List.map_congr_left hpt, getD_range_self]

/-- The composition underlying secure-mode storage: encrypt, wrap in base64,
decrypt under the same key, restores the message. -/
theorem secure_roundtrip (a : Abc) (msg : PyStr) (hm : msg ≠ [])
    (hv : ∀ i < msg.length,
      validScalar (msg.getD i 0 + 27 * (keyStream a.key msg.length).getD i 0)) :
    (a.encrypt msg).bind (fun bs => a.decrypt (b64encode bs)) = some msg := by
  have hvalid : ∀ c ∈ scrambleWith a.key msg, validScalar c := by
    intro c hc
    unfold scrambleWith at hc
    obtain ⟨i, hi, rfl⟩ := List.mem_map.mp hc
    exact hv i (List.mem_range.mp hi)
  obtain ⟨bytes, hbytes⟩ := utf8Encode_total _ hvalid
  have henc : a.encrypt msg = some bytes := by
    unfold Abc.encrypt
    rw [isEmpty_false_of_ne_nil _ hm]
    simp only [Bool.false_eq_true, if_false]
    exact hbytes
  rw [henc, Option.some_bind]
  rw [decrypt_of_bytes a _ bytes (scrambleWith_ne_nil a.key msg hm) hbytes]
  rw [unscramble_scramble]

/-- A representative derived key: 128 repetitions of the hex digit 0 (the
real derived key is always a 128-character hexadecimal string). -/
def hexKey0 : PyStr := List.replicate 128 48

/-- A second, different representative derived key (128 times hex digit 1). -/
def hexKey1 : PyStr := List.replicate 128 49

/-- C1, counterexample: in the default data mode `_encode` and `_decode` are
both the identity, so `_decode(_encode(v))` is `v` itself and not `str(v)`:
for the integer 42 the round trip returns the integer 42, which Python's
`==` distinguishes from the string produced by `str(42)`. -/
theorem default_mode_roundtrip_not_str :
    roundTrip DataMode.default (PyValue.int 42) = some (PyValue.int 42) ∧
    pyStr (PyValue.int 42) = strL ['4', '2'] ∧
    PyValue.int 42 ≠ PyValue.str (strL ['4', '2']) :=
  ⟨rfl, by decide, by decide⟩

/-- C1, amended claim: decoding the encoding of a value `v` restores `v`
itself in the default mode, and restores `str(v)` in the b64 mode whenever
`str(v)` is pure ASCII and in the secure mode whenever `str(v)` is non-empty
and every scrambled code point is a valid non-surrogate scalar (otherwise
those modes raise on encode or decode). -/
theorem roundtrip_per_mode :
    (∀ v : PyValue, roundTrip DataMode.default v = some v) ∧
    (∀ v : PyValue, (∀ c ∈ pyStr v, c < 128) →
      roundTrip DataMode.b64 v = some (PyValue.str (pyStr v))) ∧
    (∀ (a : Abc) (v : PyValue), pyStr v ≠ [] →
      (∀ i < (pyStr v).length,
        validScalar ((pyStr v).getD i 0 + 27 * (keyStream a.key (pyStr v).length).getD i 0)) →
      roundTrip (DataMode.secure a) v = some (PyValue.str (pyStr v))) := by
  refine ⟨fun v => rfl, ?_, ?_⟩
  · intro v h
    unfold roundTrip mEncode
    rw [utf8Encode_ascii (pyStr v) h, Option.map_some', Option.some_bind]
    show mDecode DataMode.b64 (PyValue.str (b64encode (pyStr v))) = _
    unfold mDecode
    dsimp only
    rw [b64decode_encode (pyStr v) (fun b hb => by have := h b hb; omega), Option.some_bind]
    rw [if_pos (by
      rw [List.all_eq_true]
      intro x hx
      exact decide_eq_true (h x hx))]
  · intro a v hm hv
    have hrt := secure_roundtrip a (pyStr v) hm hv
    cases henc : a.encrypt (pyStr v) with
    | none => rw [henc, Option.none_bind] at hrt; exact absurd hrt (by simp)
    | some bytes => ?_
    rw [henc, Option.some_bind] at hrt
    unfold roundTrip mEncode
    dsimp only
    rw [henc, Option.map_some', Option.some_bind]
    show mDecode (DataMode.secure a) (PyValue.str (b64encode bytes)) = _
    unfold mDecode
    dsimp only
    rw [hrt]
    rfl

/-- Witness for `roundtrip_per_mode` at concrete inputs in all three modes. -/
theorem roundtrip_per_mode_witness :
    roundTrip DataMode.default (PyValue.bool true) = some (PyValue.bool true) ∧
    roundTrip DataMode.b64 (PyValue.str (strL ['A'])) = some (PyValue.str (strL ['A'])) ∧
    roundTrip (DataMode.secure ⟨hexKey0⟩) (PyValue.str (strL ['A'])) =
      some (PyValue.str (strL ['A'])) :=
  ⟨roundtrip_per_mode.1 (PyValue.bool true),
    roundtrip_per_mode.2.1 (PyValue.str (strL ['A'])) (by decide),
    roundtrip_per_mode.2.2 ⟨hexKey0⟩ (PyValue.str (strL ['A'])) (by decide) (by decide)⟩

/-- C8, counterexample: a secure-mode (src/SSqlite.py) ciphertext produced
under one derived key, decoded under a different derived key, does NOT raise
any error: `Abc.decrypt` silently returns garbled text (the message A comes
back as the ampersand character). -/
theorem secure_wrong_key_silent_garble :
    (mEncode (DataMode.secure ⟨hexKey0⟩) (PyValue.str (strL ['A']))).bind
      (mDecode (DataMode.secure ⟨hexKey1⟩)) = some (PyValue.str (strL ['&'])) ∧
    strL ['&'] ≠ strL ['A'] :=
  ⟨by decide, by decide⟩

/-- C8, amended claim: decoding a well-formed secure-mode ciphertext under a
different secret does not raise a distinct error; `Abc.decrypt` succeeds and
returns the (generally garbled) unscrambling under the wrong key stream.
(Only the AES prototype of src/AESqlite.py can detect a wrong key, and only
when the garbled plaintext fails text decoding.) -/
theorem secure_decrypt_wrong_key_no_error (a1 a2 : Abc) (v : PyValue)
    (hm : pyStr v ≠ [])
    (hv : ∀ i < (pyStr v).length,
      validScalar ((pyStr v).getD i 0 + 27 * (keyStream a1.key (pyStr v).length).getD i 0)) :
    (mEncode (DataMode.secure a1) v).bind (mDecode (DataMode.secure a2)) =
      some (PyValue.str (unscrambleWith a2.key (scrambleWith a1.key (pyStr v)))) := by
  have hvalid : ∀ c ∈ scrambleWith a1.key (pyStr v), validScalar c := by
    intro c hc
    unfold scrambleWith at hc
    obtain ⟨i, hi, rfl⟩ := List.mem_map.mp hc
    exact hv i (List.mem_range.mp hi)
  obtain ⟨bytes, hbytes⟩ := utf8Encode_total _ hvalid
  have henc : a1.encrypt (pyStr v) = some bytes := by
    unfold Abc.encrypt
    rw [isEmpty_false_of_ne_nil _ hm]
    simp only [Bool.false_eq_true, if_false]
    exact hbytes
  unfold mEncode
  dsimp only
  rw [henc, Option.map_some', Option.some_bind]
  show mDecode (DataMode.secure a2) (PyValue.str (b64encode bytes)) = _
  unfold mDecode
  dsimp only
  rw [decrypt_of_bytes a2 _ bytes (scrambleWith_ne_nil a1.key (pyStr v) hm) hbytes]
  rfl

/-- Witness for `secure_decrypt_wrong_key_no_error` at the two concrete keys. -/
theorem secure_decrypt_wrong_key_no_error_witness :
    (mEncode (DataMode.secure ⟨hexKey0⟩) (PyValue.str (strL ['B']))).bind
      (mDecode (DataMode.secure ⟨hexKey1⟩)) =
      some (PyValue.str (unscrambleWith hexKey1 (scrambleWith hexKey0 (strL ['B'])))) :=
  secure_decrypt_wrong_key_no_error ⟨hexKey0⟩ ⟨hexKey1⟩ (PyValue.str (strL ['B']))
    (by decide) (by decide)

/-! ### Declared-type tables and value parsing (src/SSqlite.py lines 10-16)

The five lexical type lists, the `LOOKUP` table mapping a declared type to
the Python runtime type expected by `add_typecheck`, and models of the
stdlib conversions `int()`, `float()`, truthiness and `str.isnumeric` used
by the read-coercion of `fetch` (line 242) and by `to_datetime`. -/

def tyBOOLEAN : PyStr := strL ['B', 'O', 'O', 'L', 'E', 'A', 'N']

def tyBOOL : PyStr := strL ['B', 'O', 'O', 'L']

def tyINT : PyStr := strL ['I', 'N', 'T']

def tyINTEGER : PyStr := strL ['I', 'N', 'T', 'E', 'G', 'E', 'R']

def tyTINYINT : PyStr := strL ['T', 'I', 'N', 'Y', 'I', 'N', 'T']

def tySMALLINT : PyStr := strL ['S', 'M', 'A', 'L', 'L', 'I', 'N', 'T']

def tyMEDIUMINT : PyStr := strL ['M', 'E', 'D', 'I', 'U', 'M', 'I', 'N', 'T']

def tyBIGINT : PyStr := strL ['B', 'I', 'G', 'I', 'N', 'T']

def tyUBIGINT : PyStr := strL ['U', 'N', 'S', 'I', 'G', 'N', 'E', 'D', ' ', 'B', 'I', 'G', ' ', 'I', 'N', 'T']

def tyREAL : PyStr := strL ['R', 'E', 'A', 'L']

def tyDOUBLE : PyStr := strL ['D', 'O', 'U', 'B', 'L', 'E']

def tyDOUBLEPREC : PyStr := strL ['D', 'O', 'U', 'B', 'L', 'E', ' ', 'P', 'R', 'E', 'C', 'I', 'S', 'I', 'O', 'N']

def tyFLOAT : PyStr := strL ['F', 'L', 'O', 'A', 'T']

def tyDATE : PyStr := strL ['D', 'A', 'T', 'E']

def tyDATETIME : PyStr := strL ['D', 'A', 'T', 'E', 'T', 'I', 'M', 'E']

def tyTIME : PyStr := strL ['T', 'I', 'M', 'E']

def tyTEXT : PyStr := strL ['T', 'E', 'X', 'T']

def tyBLOB : PyStr := strL ['B', 'L', 'O', 'B']

/-- Model of `BOOL = ["BOOLEAN", "BOOL"]`. -/
def BOOL : List PyStr := [tyBOOLEAN, tyBOOL]

/-- Model of `INTEGERS = ["INT", "INTEGER", "TINYINT", "SMALLINT", "MEDIUMINT", "BIGINT", "UNSIGNED BIG INT"]`. -/
def INTEGERS : List PyStr := [tyINT, tyINTEGER, tyTINYINT, tySMALLINT, tyMEDIUMINT, tyBIGINT, tyUBIGINT]

/-- Model of `REAL = ["REAL", "DOUBLE", "DOUBLE PRECISION", "FLOAT"]`. -/
def REAL : List PyStr := [tyREAL, tyDOUBLE, tyDOUBLEPREC, tyFLOAT]

/-- Model of `DATE = ["DATE", "DATETIME", "TIME"]`. -/
def DATE : List PyStr := [tyDATE, tyDATETIME, tyTIME]

/-- Model of `TEXT = ["TEXT"]`. -/
def TEXT : List PyStr := [tyTEXT]

/-- Model of `ALL = sum((BOOL, INTEGERS, REAL, DATE, TEXT), [])`. -/
def ALL : List PyStr := BOOL ++ INTEGERS ++ REAL ++ DATE ++ TEXT

/-- A Python runtime type, as stored in the `LOOKUP` table. -/
inductive PyType
  | int
  | float
  | bool
  | str
deriving DecidableEq

/-- Model of `LOOKUP`: declared type to the runtime type `add_typecheck` asserts
against (`.get` returning `none` for date/unknown types). -/
def LOOKUP (ty : PyStr) : Option PyType :=
  if ty ∈ INTEGERS then some .int
  else if ty ∈ REAL then some .float
  else if ty ∈ BOOL then some .bool
  else if ty ∈ TEXT then some .str
  else none

/-- Model of `isinstance(v, t)`; a Python bool is an instance of `int` as well. -/
def pyIsinstance (v : PyValue) (ty : PyType) : Bool :=
  match v, ty with
  | .bool _, .bool => true
  | .bool _, .int => true
  | .int _, .int => true
  | .float _, .float => true
  | .str _, .str => true
  | _, _ => false

def isSpaceCp (c : Nat) : Bool := c = 32 || c = 9 || c = 10 || c = 13 || c = 11 || c = 12

def isDigitCp (c : Nat) : Bool := decide (48 ≤ c ∧ c ≤ 57)

/-- Strip leading and trailing ASCII whitespace (as `int()`/`float()` do). -/
def stripWs (s : PyStr) : PyStr := ((s.dropWhile isSpaceCp).reverse.dropWhile isSpaceCp).reverse

def digitsVal (s : PyStr) : Nat := s.foldl (fun acc c => acc * 10 + (c - 48)) 0

/-- Model of `int(s)` on a string: optional sign then a non-empty digit run (digit
group underscores are not modelled). -/
def parseIntStr (s : PyStr) : Option Int :=
  match stripWs s with
  | 43 :: rest => if rest ≠ [] ∧ rest.all isDigitCp then some (digitsVal rest) else none
  | 45 :: rest => if rest ≠ [] ∧ rest.all isDigitCp then some (-(digitsVal rest : Int)) else none
  | t => if t ≠ [] ∧ t.all isDigitCp then some (digitsVal t) else none

/-- Model of `str.isnumeric()`: non-empty and all numeric characters (restricted to
ASCII digits; other Unicode numeric characters are out of model scope). -/
def isNumericStr (s : PyStr) : Bool := decide (s ≠ []) && s.all isDigitCp

def digitsNonempty (ds : PyStr) : Bool := decide (ds ≠ []) && ds.all isDigitCp

def expTail (rest : PyStr) : Bool :=
  match rest with
  | 43 :: ds => digitsNonempty ds
  | 45 :: ds => digitsNonempty ds
  | ds => digitsNonempty ds

def expPart (r : PyStr) : Bool :=
  match r with
  | 101 :: rest => expTail rest
  | 69 :: rest => expTail rest
  | _ => false

/-- Digits, optional fraction, optional exponent (46 is the dot). -/
def mantAndExp (t : PyStr) : Bool :=
  match t.dropWhile isDigitCp with
  | 46 :: r2 =>
      (decide ((t.takeWhile isDigitCp) ≠ []) || decide ((r2.takeWhile isDigitCp) ≠ [])) &&
      ((r2.dropWhile isDigitCp).isEmpty || expPart (r2.dropWhile isDigitCp))
  | r1 => decide ((t.takeWhile isDigitCp) ≠ []) && (r1.isEmpty || expPart r1)

def dropSign (t : PyStr) : PyStr :=
  match t with
  | 43 :: r => r
  | 45 :: r => r
  | _ => t

/-- Is `s` accepted by `float(s)`? (decimal literal, or inf/infinity/nan,
case-insensitively). -/
def isFloatLit (s : PyStr) : Bool :=
  decide ((dropSign (stripWs s)).map (fun c => if 65 ≤ c ∧ c ≤ 90 then c + 32 else c) =
      strL ['i', 'n', 'f']) ||
  decide ((dropSign (stripWs s)).map (fun c => if 65 ≤ c ∧ c ≤ 90 then c + 32 else c) =
      strL ['i', 'n', 'f', 'i', 'n', 'i', 't', 'y']) ||
  decide ((dropSign (stripWs s)).map (fun c => if 65 ≤ c ∧ c ≤ 90 then c + 32 else c) =
      strL ['n', 'a', 'n']) ||
  mantAndExp (dropSign (stripWs s))

/-- Does the float literal denote zero (all mantissa digits are 0)? -/
def floatLitIsZero (s : PyStr) : Bool :=
  decide (((dropSign (stripWs s)).takeWhile
      (fun c => decide (c ≠ 101) && decide (c ≠ 69))).filter isDigitCp ≠ []) &&
  (((dropSign (stripWs s)).takeWhile
      (fun c => decide (c ≠ 101) && decide (c ≠ 69))).filter isDigitCp).all
    (fun c => decide (c = 48))

def parseExpInt (r : PyStr) : Option Int :=
  match r with
  | 43 :: ds => if digitsNonempty ds then some (digitsVal ds) else none
  | 45 :: ds => if digitsNonempty ds then some (-(digitsVal ds : Int)) else none
  | ds => if digitsNonempty ds then some (digitsVal ds) else none

/-- Model of `int(float)`: truncation toward zero of the decimal value denoted by a
float repr literal (inf/nan give `none`, as `int()` raises on them). -/
def floatTruncOf (s : PyStr) : Option Int :=
  match stripWs s with
  | t0 =>
    let neg : Bool := match t0 with | 45 :: _ => true | _ => false
    let t := dropSign t0
    let d1 := t.takeWhile isDigitCp
    let r1 := t.dropWhile isDigitCp
    let d2 := match r1 with
      | 46 :: rr => rr.takeWhile isDigitCp
      | _ => []
    let r2 := match r1 with
      | 46 :: rr => rr.dropWhile isDigitCp
      | _ => r1
    let ex : Option Int := match r2 with
      | [] => some 0
      | 101 :: rr => parseExpInt rr
      | 69 :: rr => parseExpInt rr
      | _ => none
    match ex with
    | none => none
    | some e =>
        if d1 = [] ∧ d2 = [] then none
        else
          let dval := digitsVal (d1 ++ d2)
          let shift : Int := e - d2.length
          let mag : Nat :=
            if 0 ≤ shift then dval * 10 ^ shift.toNat else dval / 10 ^ (-shift).toNat
          some (if neg then -(mag : Int) else (mag : Int))

/-- Model of `int(j)` on a logical value. -/
def pyIntOf : PyValue → Option Int
  | .int n => some n
  | .bool b => some (if b then 1 else 0)
  | .str s => parseIntStr s
  | .float rep => floatTruncOf rep
  | .datetime _ => none

/-- Model of `float(j)` on a logical value (the resulting float is modelled by a
repr string; repr normalisation is interpreter-internal and not modelled). -/
def pyFloatOf : PyValue → Option PyValue
  | .int n => some (.float (intRepr n ++ strL ['.', '0']))
  | .bool b => some (.float (if b then strL ['1', '.', '0'] else strL ['0', '.', '0']))
  | .str s => if isFloatLit s then some (.float (stripWs s)) else none
  | .float rep => some (.float rep)
  | .datetime _ => none

/-- Python truthiness `not not j`. -/
def pyTruthy : PyValue → Bool
  | .int n => decide (n ≠ 0)
  | .bool b => b
  | .str s => decide (s ≠ [])
  | .float rep => ! floatLitIsZero rep
  | .datetime _ => true

/-- Simplified model of `datetime.datetime.fromisoformat` acceptance: a
YYYY-MM-DD prefix with plausible month and day, optionally followed by a
time part introduced by T (84) or space (32), not further validated. -/
def isoParseable (s : PyStr) : Bool :=
  match s with
  | y1 :: y2 :: y3 :: y4 :: 45 :: m1 :: m2 :: 45 :: d1 :: d2 :: rest =>
      isDigitCp y1 && isDigitCp y2 && isDigitCp y3 && isDigitCp y4 &&
      isDigitCp m1 && isDigitCp m2 && isDigitCp d1 && isDigitCp d2 &&
      decide (1 ≤ (m1 - 48) * 10 + (m2 - 48)) && decide ((m1 - 48) * 10 + (m2 - 48) ≤ 12) &&
      decide (1 ≤ (d1 - 48) * 10 + (d2 - 48)) && decide ((d1 - 48) * 10 + (d2 - 48) ≤ 31) &&
      (rest.isEmpty || (match rest with | 84 :: _ => true | 32 :: _ => true | _ => false))
  | _ => false

/-- Model of `SqliteDatabase.to_datetime`: a numeric string is a Unix timestamp, any
other string is parsed as ISO-8601 (raising on failure); ints, floats and
bools (instances of int) go through `fromtimestamp`; anything else raises. -/
def to_datetime : PyValue → Option PyValue
  | .str s =>
      if isNumericStr s then some (.datetime (.fromTimestamp s))
      else if isoParseable s then some (.datetime (.fromIso s))
      else none
  | .int n => some (.datetime (.fromTimestamp (intRepr n)))
  | .float rep => some (.datetime (.fromTimestamp rep))
  | .bool b => some (.datetime (.fromTimestamp (if b then strL ['1'] else strL ['0'])))
  | .datetime _ => none

/-- The per-cell read coercion of `fetch` (src/SSqlite.py line 242):
`int(j) if type in INTEGERS else float(j) if type in REAL else not not j if
type in BOOL else to_datetime(j) if type in DATE else j`; an absent declared
type (`columns.get` returning `None`) falls through unchanged. -/
def coerceOnRead (dt : Option PyStr) (j : PyValue) : Option PyValue :=
  match dt with
  | some ty =>
      if ty ∈ INTEGERS then (pyIntOf j).map .int
      else if ty ∈ REAL then pyFloatOf j
      else if ty ∈ BOOL then some (.bool (pyTruthy j))
      else if ty ∈ DATE then to_datetime j
      else some j
  | none => some j

/-- The semantic kind of a declared column type (spec section 3). -/
inductive TypeKind
  | integer
  | real
  | boolean
  | timestamp
  | text
  | opaq
deriving DecidableEq

/-- Modelled from the spec: `classify(declared_type) -> TypeKind`, pure
lexical classification against the fixed kind tables with unknown/absent
mapping to Opaque — amended from the spec's case-insensitive wording to the
case-sensitive exact matching that the code performs. -/
def classifyKind (dt : Option PyStr) : TypeKind :=
  match dt with
  | none => .opaq
  | some ty =>
      if ty ∈ INTEGERS then .integer
      else if ty ∈ REAL then .real
      else if ty ∈ BOOL then .boolean
      else if ty ∈ DATE then .timestamp
      else if ty ∈ TEXT then .text
      else .opaq

/-- Modelled from the spec: `coerce_on_read(storage_value, kind)` — Integer
parses an int, Real parses a float, Boolean takes truthiness, Timestamp goes
through `to_datetime` (numeric means Unix timestamp, otherwise ISO-8601),
Text and Opaque pass through unchanged. -/
def kindCoerce (k : TypeKind) (j : PyValue) : Option PyValue :=
  match k with
  | .integer => (pyIntOf j).map .int
  | .real => pyFloatOf j
  | .boolean => some (.bool (pyTruthy j))
  | .timestamp => to_datetime j
  | .text => some j
  | .opaq => some j

/-- C2, counterexample: classification of the declared type is NOT
case-insensitive: the lowercase declared type integer leaves the storage
string 42 untouched, while the uppercase INTEGER parses it to the integer
42; a case-insensitive classification would treat both alike. -/
theorem classification_not_case_insensitive :
    coerceOnRead (some (strL ['i', 'n', 't', 'e', 'g', 'e', 'r'])) (PyValue.str (strL ['4', '2'])) =
      some (PyValue.str (strL ['4', '2'])) ∧
    coerceOnRead (some tyINTEGER) (PyValue.str (strL ['4', '2'])) = some (PyValue.int 42) :=
  ⟨by decide, by decide⟩

/-- C2, amended claim: on every fetch each returned storage value is decoded
and then coerced by `coerceOnRead` according to the column's declared type,
and that coercion agrees exactly with the spec's classify-then-coerce
pipeline once classification is taken as case-SENSITIVE exact matching
against the fixed uppercase tables (Integer parses an int, Real a float,
Boolean truthiness, Timestamp via numeric-as-Unix-timestamp else ISO-8601,
Text/Opaque/unknown pass through). -/
theorem coerce_on_read_refines_classify :
    ∀ (dt : Option PyStr) (j : PyValue), coerceOnRead dt j = kindCoerce (classifyKind dt) j := by
  intro dt j
  match dt with
  | none => rfl
  | some ty =>
      unfold coerceOnRead classifyKind
      dsimp only
      by_cases h1 : ty ∈ INTEGERS
      · rw [if_pos h1, if_pos h1]; rfl
      · rw [if_neg h1, if_neg h1]
        by_cases h2 : ty ∈ REAL
        · rw [if_pos h2, if_pos h2]; rfl
        · rw [if_neg h2, if_neg h2]
          by_cases h3 : ty ∈ BOOL
          · rw [if_pos h3, if_pos h3]; rfl
          · rw [if_neg h3, if_neg h3]
            by_cases h4 : ty ∈ DATE
            · rw [if_pos h4, if_pos h4]; rfl
            · rw [if_neg h4, if_neg h4]
              by_cases h5 : ty ∈ TEXT
              · rw [if_pos h5]; rfl
              · rw [if_neg h5]; rfl

/-! ### The database state model and the record gateway

The storage engine is the external collaborator of spec section 6: the model
keeps each table as its ordered column descriptors plus its rows, and gives
the engine's semantics to the SQL the gateway builds (AND-equality
predicates, positional inserts, rowcount feedback, `no such table` /
`no such column` errors as `sqlite3.OperationalError`). -/

/-- Python exceptions surfaced by the gateway operations. -/
inductive PyErr
  | operationalError
  | dataBaseException
  | assertionError
  | valueError
  | encodeError
  | decodeError
deriving DecidableEq

/-- An insertion-ordered record (a Python dict with string keys). -/
abbrev Record := List (PyStr × PyValue)

/-- A table: ordered column descriptors (name, declared type as stored in
the schema, the empty string when untyped) and rows aligned with them. -/
structure DBTable where
  cols : List (PyStr × PyStr)
  rows : List (List PyValue)
deriving DecidableEq

/-- The database: an association list from table name to table. -/
abbrev DBState := List (PyStr × DBTable)

def lookupTable : DBState → PyStr → Option DBTable
  | [], _ => none
  | p :: ps, name => if p.1 = name then some p.2 else lookupTable ps name

def setTableRows : DBState → PyStr → List (List PyValue) → DBState
  | [], _, _ => []
  | p :: ps, t, rows =>
      if p.1 = t then (p.1, ⟨p.2.cols, rows⟩) :: ps else p :: setTableRows ps t rows

/-- Model of `Table.columns`: ordered (name, declared type) pairs with `BLOB`
substituted for an untyped column. -/
def columnsOf (tb : DBTable) : List (PyStr × PyStr) :=
  tb.cols.map (fun p => (p.1, if p.2 = [] then tyBLOB else p.2))

def colNames (tb : DBTable) : List PyStr := tb.cols.map Prod.fst

def lookupAssoc (l : List (PyStr × PyStr)) (k : PyStr) : Option PyStr :=
  (l.find? (fun p => decide (p.1 = k))).map Prod.snd

/-- Encode every value of a record through `_encode` (`none` when `_encode`
raises). -/
def encodeRecord (m : DataMode) (r : Record) : Option Record :=
  r.mapM (fun p => (mEncode m p.2).map (fun w => (p.1, w)))

def liftO (e : PyErr) : Option α → Except PyErr α
  | some a => .ok a
  | none => .error e

/-- The value slot of a result envelope. -/
inductive RespValue
  | record (r : Record)
  | records (rs : List Record)
  | count (n : Nat)
deriving DecidableEq

/-- Model of `DataBaseResponse` (status, value). -/
structure DBResponse where
  status : Bool
  value : Option RespValue
deriving DecidableEq

/-- Value of `row[c]` for a storage row aligned with the column names. -/
def rowLookup (names : List PyStr) (row : List PyValue) (c : PyStr) : Option PyValue :=
  ((names.zip row).find? (fun p => decide (p.1 = c))).map Prod.snd

/-- Does a stored row satisfy the AND-equality predicate? -/
def rowMatchesB (names : List PyStr) (ep : Record) (row : List PyValue) : Bool :=
  ep.all (fun p => decide (rowLookup names row p.1 = some p.2))

/-- The rows selected by `SELECT * FROM t WHERE c1=? AND ...` (an empty
predicate selects every row). -/
def matchingRows (tb : DBTable) (ep : Record) : List (List PyValue) :=
  tb.rows.filter (fun row => rowMatchesB (colNames tb) ep row)

/-- Decode then coerce one fetched row into a result record (`dict(x)` keyed
by column name, decoded through `_decode`, coerced per line 242). The source
decodes all rows and then coerces all rows in two comprehensions; the model
fuses the two per cell, which returns the same records whenever both passes
succeed and raises whenever the source raises. -/
def fetchRowDec (m : DataMode) (tb : DBTable) (row : List PyValue) : Except PyErr Record :=
  ((colNames tb).zip row).mapM (fun p => do
    let d ← liftO .decodeError (mDecode m p.2)
    let cv ← liftO .valueError (coerceOnRead (lookupAssoc (columnsOf tb) p.1) d)
    pure (p.1, cv))

/-- Finalisation of the fetch result list:
`result = result[0] if mode == 1 and result else result` followed by
`DataBaseResponse(status=not not result, value=result if result else None)`. -/
def finishFetch (mode : Nat) (recs : List Record) : DBResponse :=
  match recs with
  | [] => ⟨false, none⟩
  | r :: rest =>
      if mode = 1 then ⟨decide (r ≠ []), if r = [] then none else some (.record r)⟩
      else ⟨true, some (.records (r :: rest))⟩

/-- Model of `SqliteDatabase.fetch`: encode the predicate, run the parameterised
select (missing table or unknown predicate column raise
`sqlite3.OperationalError`), decode and coerce every cell of every matching
row, and wrap mode-1/mode-2 results. -/
def fetchOp (m : DataMode) (st : DBState) (pred : Record) (table : PyStr) (mode : Nat) :
    Except PyErr DBResponse := do
  let ep ← liftO .encodeError (encodeRecord m pred)
  let tb ← liftO .operationalError (lookupTable st table)
  if ep.all (fun p => decide (p.1 ∈ colNames tb)) then
    let recs ← (matchingRows tb ep).mapM (fetchRowDec m tb)
    pure (finishFetch mode recs)
  else .error .operationalError

/-- Model of `if limit:` — a LIMIT clause is emitted only for a truthy (nonzero)
limit. -/
def limVal : Option Nat → Option Nat
  | some l => if l ≠ 0 then some l else none
  | none => none

/-- Engine semantics of `DELETE ... [LIMIT n]`: remove the first `budget`
(or all) matching rows; returns the kept rows and the deleted count. -/
def deleteRows (names : List PyStr) (ep : Record) : Option Nat → List (List PyValue) →
    (List (List PyValue) × Nat)
  | _, [] => ([], 0)
  | budget, r :: rs =>
      if rowMatchesB names ep r then
        match budget with
        | some 0 =>
            let del := deleteRows names ep (some 0) rs
            (r :: del.1, del.2)
        | some (b + 1) =>
            let del := deleteRows names ep (some b) rs
            (del.1, del.2 + 1)
        | none =>
            let del := deleteRows names ep none rs
            (del.1, del.2 + 1)
      else
        let del := deleteRows names ep budget rs
        (r :: del.1, del.2)

/-- The `xInputDataT` union: one record, or a list of records. -/
inductive InputData
  | one (r : Record)
  | many (rs : List Record)
deriving DecidableEq

/-- One `DELETE` execution of `remove` on a single predicate dict. -/
def removeOneCore (m : DataMode) (st : DBState) (pred : Record) (table : PyStr)
    (limit : Option Nat) : Except PyErr (DBState × DBResponse) := do
  let ep ← liftO .encodeError (encodeRecord m pred)
  let tb ← liftO .operationalError (lookupTable st table)
  if ep.all (fun p => decide (p.1 ∈ colNames tb)) then
    let del := deleteRows (colNames tb) ep (limVal limit) tb.rows
    pure (setTableRows st table del.1,
      ⟨decide (del.2 ≠ 0), if del.2 ≠ 0 then some (.count del.2) else none⟩)
  else .error .operationalError

/-- Model of `SqliteDatabase.remove`: a list input runs one independent delete per
predicate and then always reports status true with the number of predicates
as the value; a single predicate reports the delete rowcount truthiness,
with a null value when nothing was deleted. -/
def removeOp (m : DataMode) (st : DBState) : InputData → PyStr → Option Nat →
    Except PyErr (DBState × DBResponse)
  | .one r, t, lim => removeOneCore m st r t lim
  | .many rs, t, lim => do
      let st2 ← rs.foldlM (fun s r => (removeOneCore m s r t lim).map Prod.fst) st
      pure (st2, ⟨true, some (.count rs.length)⟩)

/-- Date-column acceptance inside `add_typecheck`: numeric strings and
numbers pass (Unix timestamps), other strings must parse as ISO-8601; any
other runtime type raises inside the guarded block and so fails the check. -/
def dateOk : PyValue → Bool
  | .str s => if isNumericStr s then true else isoParseable s
  | .int _ => true
  | .float _ => true
  | .bool _ => true
  | .datetime _ => false

/-- The `add_typecheck` loop over the declared column types, positionally
indexing the record's values: BLOB/unknown types are skipped, date types
must satisfy `dateOk`, other types must `isinstance` the `LOOKUP` type; any
failure (including a missing positional value, an IndexError in the source)
yields false. -/
def tcLoop (vals : List PyValue) : List PyStr → Nat → Bool
  | [], _ => true
  | y :: ys, x =>
      if y = tyBLOB ∨ y ∉ ALL then tcLoop vals ys (x + 1)
      else
        match vals[x]? with
        | none => false
        | some v =>
            (if y ∈ DATE then dateOk v
             else match LOOKUP y with
               | some ty => pyIsinstance v ty
               | none => false) && tcLoop vals ys (x + 1)

/-- Model of `SqliteDatabase.add_typecheck` on a record against the `Table.columns`
descriptor list. -/
def add_typecheck (data : Record) (columns : List (PyStr × PyStr)) : Bool :=
  tcLoop (data.map Prod.snd) (columns.map Prod.snd) 0

/-- Model of `SqliteDatabase.add` (src/SSqlite.py) on a single record: encode the
values, construct `Table` (raising `sqlite3.OperationalError` when the table
does not exist, before anything else can run), type-check the raw record,
and insert listing the column names in metadata order while binding the
values in the record's insertion order; on a failed type check return a
status-false envelope with no insert. -/
def addOp (m : DataMode) (st : DBState) (data : Record) (table : PyStr) :
    Except PyErr (DBState × DBResponse) := do
  let ed ← liftO .encodeError (encodeRecord m data)
  let tb ← liftO .operationalError (lookupTable st table)
  if add_typecheck data (columnsOf tb) then
    if ed.length = tb.cols.length then
      pure (setTableRows st table (tb.rows ++ [ed.map Prod.snd]), ⟨true, some (.record data)⟩)
    else .error .operationalError
  else pure (st, ⟨false, none⟩)

/-- Model of `SqliteDatabase.add` of src/AESqlite.py on a single record: no type
check; the `Table` construction raises `sqlite3.OperationalError` on a
missing table before the `if columns:` guard, whose
`DataBaseException(Table ... does not exist)` branch is therefore
unreachable for well-formed states. -/
def addAesOp (m : DataMode) (st : DBState) (data : Record) (table : PyStr) :
    Except PyErr (DBState × DBResponse) := do
  let ed ← liftO .encodeError (encodeRecord m data)
  let tb ← liftO .operationalError (lookupTable st table)
  if columnsOf tb ≠ [] then
    if ed.length = tb.cols.length then
      pure (setTableRows st table (tb.rows ++ [ed.map Prod.snd]), ⟨true, some (.record data)⟩)
    else .error .operationalError
  else .error .dataBaseException

/-- Apply the SET clause of an update to one row. -/
def applySet (names : List PyStr) (ed : Record) (row : List PyValue) : List PyValue :=
  (names.zip row).map (fun p =>
    match ed.find? (fun q => decide (q.1 = p.1)) with
    | some q => q.2
    | none => p.2)

/-- Engine semantics of `UPDATE ... SET ... [WHERE ...] [LIMIT n]`: rewrite
the first `budget` (or all) matching rows; returns the new rows and the
match count (the statement's rowcount). -/
def updateRows (names : List PyStr) (ep ed : Record) : Option Nat → List (List PyValue) →
    (List (List PyValue) × Nat)
  | _, [] => ([], 0)
  | budget, r :: rs =>
      if rowMatchesB names ep r then
        match budget with
        | some 0 =>
            let upd := updateRows names ep ed (some 0) rs
            (r :: upd.1, upd.2)
        | some (b + 1) =>
            let upd := updateRows names ep ed (some b) rs
            (applySet names ed r :: upd.1, upd.2 + 1)
        | none =>
            let upd := updateRows names ep ed none rs
            (applySet names ed r :: upd.1, upd.2 + 1)
      else
        let upd := updateRows names ep ed budget rs
        (r :: upd.1, upd.2)

/-- Model of `SqliteDatabase.update`: encodes predicate and new values, raises the
empty-update `DataBaseException` when the new-values dict is empty (before
any engine access, hence regardless of the predicate and of the table),
otherwise updates the matching rows (up to the truthy limit) and reports the
statement rowcount as the value, even when it is 0. -/
def updateOp (m : DataMode) (st : DBState) (toReplace data : Record) (table : PyStr)
    (limit : Option Nat) : Except PyErr (DBState × DBResponse) := do
  let ep ← liftO .encodeError (encodeRecord m toReplace)
  let ed ← liftO .encodeError (encodeRecord m data)
  if ed.isEmpty then .error .dataBaseException
  else
    let tb ← liftO .operationalError (lookupTable st table)
    if ep.all (fun p => decide (p.1 ∈ colNames tb)) &&
        ed.all (fun p => decide (p.1 ∈ colNames tb)) then
      let upd := updateRows (colNames tb) ep ed (limVal limit) tb.rows
      pure (setTableRows st table upd.1, ⟨decide (upd.2 ≠ 0), some (.count upd.2)⟩)
    else .error .operationalError

/-- Number of rows a table currently holds (0 for a missing table). -/
def rowCount (st : DBState) (t : PyStr) : Nat :=
  match lookupTable st t with
  | some tb => tb.rows.length
  | none => 0

@[simp] theorem liftO_some (e : PyErr) (a : α) : liftO e (some a) = .ok a := rfl

@[simp] theorem liftO_none (e : PyErr) : liftO e (none : Option α) = .error e := rfl

@[simp] theorem ok_bind (a : α) (f : α → Except PyErr β) : (Except.ok a >>= f) = f a := rfl

@[simp] theorem error_bind (e : PyErr) (f : α → Except PyErr β) :
    ((Except.error e : Except PyErr α) >>= f) = .error e := rfl

@[simp] theorem pure_eq_ok (a : α) : (pure a : Except PyErr α) = .ok a := rfl

theorem lookupTable_set (st : DBState) (t : PyStr) (tb : DBTable)
    (rows : List (List PyValue)) (h : lookupTable st t = some tb) :
    lookupTable (setTableRows st t rows) t = some ⟨tb.cols, rows⟩ := by
  induction st with
  | nil => exact absurd h (by simp [lookupTable])
  | cons p ps ih =>
      unfold lookupTable at h
      unfold setTableRows
      by_cases hp : p.1 = t
      · rw [if_pos hp] at h
        rw [if_pos hp]
        unfold lookupTable
        rw [if_pos hp]
        cases h
        rfl
      · rw [if_neg hp] at h
        rw [if_neg hp]
        unfold lookupTable
        rw [if_neg hp]
        exact ih h

theorem setTableRows_self (st : DBState) (t : PyStr) (tb : DBTable)
    (h : lookupTable st t = some tb) : setTableRows st t tb.rows = st := by
  induction st with
  | nil => exact absurd h (by simp [lookupTable])
  | cons p ps ih =>
      unfold lookupTable at h
      unfold setTableRows
      by_cases hp : p.1 = t
      · rw [if_pos hp] at h
        rw [if_pos hp]
        injection h with h2
        rw [← h2]
      · rw [if_neg hp] at h
        rw [if_neg hp, ih h]

theorem deleteRows_split (names : List PyStr) (ep : Record) :
    ∀ (budget : Option Nat) (rows : List (List PyValue)),
      (deleteRows names ep budget rows).1.length + (deleteRows names ep budget rows).2 =
        rows.length
  | _, [] => by simp [deleteRows]
  | budget, r :: rs => by
      unfold deleteRows
      by_cases hm : rowMatchesB names ep r
      · rw [if_pos hm]
        cases budget with
        | none =>
            have := deleteRows_split names ep none rs
            dsimp only
            simp only [List.length_cons]
            omega
        | some b =>
            cases b with
            | zero =>
                have := deleteRows_split names ep (some 0) rs
                dsimp only
                simp only [List.length_cons]
                omega
            | succ b =>
                have := deleteRows_split names ep (some b) rs
                dsimp only
                simp only [List.length_cons]
                omega
      · rw [if_neg hm]
        have := deleteRows_split names ep budget rs
        dsimp only
        simp only [List.length_cons]
        omega

theorem deleteRows_nomatch (names : List PyStr) (ep : Record) :
    ∀ (budget : Option Nat) (rows : List (List PyValue)),
      (∀ r ∈ rows, rowMatchesB names ep r = false) →
      deleteRows names ep budget rows = (rows, 0)
  | _, [], _ => by simp [deleteRows]
  | budget, r :: rs, h => by
      unfold deleteRows
      rw [if_neg (by simp [h r (by simp)])]
      rw [deleteRows_nomatch names ep budget rs (fun x hx => h x (by simp [hx]))]

theorem encodeRecord_keys (m : DataMode) :
    ∀ (data ed : Record), encodeRecord m data = some ed →
      ed.map Prod.fst = data.map Prod.fst
  | [], ed, h => by
      simp only [encodeRecord, List.mapM_nil, pure, Option.some.injEq] at h
      rw [← h]
  | (k, v) :: rest, ed, h => by
      simp only [encodeRecord, List.mapM_cons, bind, Option.bind] at h
      cases hv : mEncode m v with
      | none => rw [hv] at h; simp at h
      | some w => ?_
      rw [hv] at h
      simp only [Option.map_some'] at h
      cases hr : rest.mapM (fun p => (mEncode m p.2).map (fun w => (p.1, w))) with
      | none => rw [hr] at h; simp at h
      | some erest => ?_
      rw [hr] at h
      simp only [pure, Option.some.injEq] at h
      subst h
      have ih := encodeRecord_keys m rest erest hr
      simp only [List.map_cons]
      rw [ih]

/-- C3, counterexample: `add` does NOT bind values in the declared-column
order: the record lists key b first and key a second, yet the inserted row
assigns the first record value (the value of key b) to the first declared
column a. The table has columns a, b (both TEXT); the record is
b maps-to 2, a maps-to 1; the stored row is a=2, b=1. -/
theorem add_binds_record_order_cex :
    addOp DataMode.default
        [(strL ['t'], ⟨[(strL ['a'], tyTEXT), (strL ['b'], tyTEXT)], []⟩)]
        [(strL ['b'], PyValue.str (strL ['2'])), (strL ['a'], PyValue.str (strL ['1']))]
        (strL ['t']) =
      .ok ([(strL ['t'], ⟨[(strL ['a'], tyTEXT), (strL ['b'], tyTEXT)],
          [[PyValue.str (strL ['2']), PyValue.str (strL ['1'])]]⟩)],
        ⟨true, some (.record [(strL ['b'], PyValue.str (strL ['2'])),
          (strL ['a'], PyValue.str (strL ['1']))])⟩) ∧
    rowLookup [strL ['a'], strL ['b']]
        [PyValue.str (strL ['2']), PyValue.str (strL ['1'])] (strL ['a']) =
      some (PyValue.str (strL ['2'])) ∧
    PyValue.str (strL ['2']) ≠ PyValue.str (strL ['1']) :=
  ⟨rfl, by decide, by decide⟩

/-- C3, amended claim: the insert statement lists the column names in the
table's declared metadata order, but binds the values in the record's key
insertion order (the i-th record value goes to the i-th declared column);
the record is stored per declared order only when its key order already
matches the declared column order. -/
theorem add_insert_row_characterization (m : DataMode) (st : DBState) (t : PyStr)
    (tb : DBTable) (data ed : Record)
    (hT : lookupTable st t = some tb)
    (hed : encodeRecord m data = some ed)
    (htc : add_typecheck data (columnsOf tb) = true)
    (hlen : ed.length = tb.cols.length) :
    addOp m st data t =
      .ok (setTableRows st t (tb.rows ++ [ed.map Prod.snd]), ⟨true, some (.record data)⟩) ∧
    ed.map Prod.fst = data.map Prod.fst := by
  constructor
  · unfold addOp
    rw [hed]
    simp only [liftO_some, ok_bind]
    rw [hT]
    simp only [liftO_some, ok_bind]
    rw [if_pos htc, if_pos hlen]
    rfl
  · exact encodeRecord_keys m data ed hed

/-- Witness for `add_insert_row_characterization` at a concrete state. -/
theorem add_insert_row_characterization_witness :
    addOp DataMode.default
        [(strL ['u'], ⟨[(strL ['a'], tyTEXT), (strL ['b'], tyTEXT)], []⟩)]
        [(strL ['b'], PyValue.str (strL ['2'])), (strL ['a'], PyValue.str (strL ['1']))]
        (strL ['u']) =
      .ok (setTableRows [(strL ['u'], ⟨[(strL ['a'], tyTEXT), (strL ['b'], tyTEXT)], []⟩)]
          (strL ['u'])
          ([] ++ [[PyValue.str (strL ['2']), PyValue.str (strL ['1'])]]),
        ⟨true, some (.record [(strL ['b'], PyValue.str (strL ['2'])),
          (strL ['a'], PyValue.str (strL ['1']))])⟩) ∧
    ([(strL ['b'], PyValue.str (strL ['2'])),
      (strL ['a'], PyValue.str (strL ['1']))] : Record).map Prod.fst =
      ([(strL ['b'], PyValue.str (strL ['2'])),
        (strL ['a'], PyValue.str (strL ['1']))] : Record).map Prod.fst :=
  ⟨(add_insert_row_characterization DataMode.default
      [(strL ['u'], ⟨[(strL ['a'], tyTEXT), (strL ['b'], tyTEXT)], []⟩)] (strL ['u'])
      ⟨[(strL ['a'], tyTEXT), (strL ['b'], tyTEXT)], []⟩
      [(strL ['b'], PyValue.str (strL ['2'])), (strL ['a'], PyValue.str (strL ['1']))]
      [(strL ['b'], PyValue.str (strL ['2'])), (strL ['a'], PyValue.str (strL ['1']))]
      rfl rfl (by decide) (by decide)).1,
    rfl⟩

/-- C4, counterexample: in the secure data mode, a record whose empty-string
value fails INTEGER validation makes `add` RAISE (the `Abc.encrypt`
non-empty-message assertion fires while encoding, before the type check)
instead of returning the status-false envelope. -/
theorem add_secure_empty_value_raises :
    addOp (DataMode.secure ⟨hexKey0⟩)
        [(strL ['t'], ⟨[(strL ['a', 'g', 'e'], tyINTEGER)], []⟩)]
        [(strL ['a', 'g', 'e'], PyValue.str [])] (strL ['t']) =
      .error .encodeError ∧
    add_typecheck [(strL ['a', 'g', 'e'], PyValue.str [])]
        (columnsOf ⟨[(strL ['a', 'g', 'e'], tyINTEGER)], []⟩) = false :=
  ⟨rfl, by decide⟩

/-- C4, amended claim: provided the record's values are encodable under the
configured data mode (always true in the default mode; secure mode raises on
empty strings at the encoding step before validation), a record failing the
type check makes `add` return a status-false envelope with a null value,
without raising and without changing the database state. -/
theorem add_validation_failure_envelope (m : DataMode) (st : DBState) (t : PyStr)
    (tb : DBTable) (data ed : Record)
    (hT : lookupTable st t = some tb)
    (hed : encodeRecord m data = some ed)
    (htc : add_typecheck data (columnsOf tb) = false) :
    addOp m st data t = .ok (st, ⟨false, none⟩) := by
  unfold addOp
  rw [hed]
  simp only [liftO_some, ok_bind]
  rw [hT]
  simp only [liftO_some, ok_bind]
  rw [if_neg (by simp [htc])]
  rfl

/-- Witness for `add_validation_failure_envelope`: a non-integer string
written to an INTEGER column returns status false and leaves the state
unchanged. -/
theorem add_validation_failure_envelope_witness :
    addOp DataMode.default
        [(strL ['t'], ⟨[(strL ['n'], tyTEXT), (strL ['a', 'g', 'e'], tyINTEGER)], []⟩)]
        [(strL ['n'], PyValue.str (strL ['x'])),
          (strL ['a', 'g', 'e'], PyValue.str (strL ['n', 'a', 'n']))] (strL ['t']) =
      .ok ([(strL ['t'], ⟨[(strL ['n'], tyTEXT), (strL ['a', 'g', 'e'], tyINTEGER)], []⟩)],
        ⟨false, none⟩) :=
  add_validation_failure_envelope DataMode.default
    [(strL ['t'], ⟨[(strL ['n'], tyTEXT), (strL ['a', 'g', 'e'], tyINTEGER)], []⟩)] (strL ['t'])
    ⟨[(strL ['n'], tyTEXT), (strL ['a', 'g', 'e'], tyINTEGER)], []⟩
    [(strL ['n'], PyValue.str (strL ['x'])),
      (strL ['a', 'g', 'e'], PyValue.str (strL ['n', 'a', 'n']))]
    [(strL ['n'], PyValue.str (strL ['x'])),
      (strL ['a', 'g', 'e'], PyValue.str (strL ['n', 'a', 'n']))]
    rfl rfl (by decide)

/-- C5, counterexample: `fetch` in mode ALL over an empty table (with an
empty predicate, which matches every row) returns a null value, not the
possibly-empty full ordered list of matches. -/
theorem fetch_all_empty_value_is_none :
    fetchOp DataMode.default [(strL ['t'], ⟨[(strL ['a'], tyTEXT)], []⟩)] [] (strL ['t']) 2 =
      .ok ⟨false, none⟩ ∧
    (none : Option RespValue) ≠ some (.records []) :=
  ⟨rfl, by decide⟩

/-- C5, amended claim: an empty predicate matches all rows; mode ONE returns
the first matching row as a single record (null if none matches); mode ALL
returns the full ordered list of matches when at least one row matches and a
NULL value (not the empty list) when none does; the envelope status is true
iff at least one row matched. -/
theorem fetch_mode_semantics (m : DataMode) (st : DBState) (t : PyStr) (tb : DBTable)
    (pred ep : Record) (mode : Nat) (recs : List Record)
    (hT : lookupTable st t = some tb)
    (hep : encodeRecord m pred = some ep)
    (hcols : ep.all (fun p => decide (p.1 ∈ colNames tb)) = true)
    (hrecs : (matchingRows tb ep).mapM (fetchRowDec m tb) = .ok recs)
    (hne : ∀ r ∈ recs, r ≠ []) :
    fetchOp m st pred t mode = .ok (finishFetch mode recs) ∧
    (pred = [] → matchingRows tb ep = tb.rows) ∧
    (mode = 1 → finishFetch mode recs =
      ⟨decide (recs ≠ []), recs.head?.map RespValue.record⟩) ∧
    (mode = 2 → finishFetch mode recs =
      ⟨decide (recs ≠ []), if recs.isEmpty then none else some (.records recs)⟩) ∧
    ((finishFetch mode recs).status = true ↔ recs ≠ []) := by
  refine ⟨?_, ?_, ?_, ?_, ?_⟩
  · unfold fetchOp
    rw [hep]
    simp only [liftO_some, ok_bind]
    rw [hT]
    simp only [liftO_some, ok_bind]
    rw [if_pos hcols, hrecs]
    rfl
  · intro hpe
    subst hpe
    have : ep = [] := by
      simp only [encodeRecord, List.mapM_nil, pure, Option.some.injEq] at hep
      exact hep.symm
    subst this
    unfold matchingRows rowMatchesB
    simp [List.all_nil]
  · intro h1
    subst h1
    cases recs with
    | nil => rfl
    | cons r rest =>
        have hr := hne r (by simp)
        unfold finishFetch
        dsimp only
        rw [if_pos rfl, if_neg hr]
        simp [hr]
  · intro h2
    subst h2
    cases recs with
    | nil => rfl
    | cons r rest =>
        unfold finishFetch
        dsimp only
        rw [if_neg (by omega)]
        simp
  · cases recs with
    | nil => simp [finishFetch]
    | cons r rest =>
        by_cases hm : mode = 1
        · subst hm
          unfold finishFetch
          dsimp only
          rw [if_pos rfl]
          simp [hne r (by simp)]
        · unfold finishFetch
          dsimp only
          rw [if_neg hm]
          simp

/-- Witness for `fetch_mode_semantics`: one-row table, empty predicate,
mode ONE. -/
theorem fetch_mode_semantics_witness :
    fetchOp DataMode.default [(strL ['t'], ⟨[(strL ['a'], tyTEXT)], [[PyValue.str (strL ['x'])]]⟩)]
        [] (strL ['t']) 1 =
      .ok (finishFetch 1 [[(strL ['a'], PyValue.str (strL ['x']))]]) ∧
    (finishFetch 1 [[(strL ['a'], PyValue.str (strL ['x']))]]).status = true :=
  ⟨(fetch_mode_semantics DataMode.default
      [(strL ['t'], ⟨[(strL ['a'], tyTEXT)], [[PyValue.str (strL ['x'])]]⟩)] (strL ['t'])
      ⟨[(strL ['a'], tyTEXT)], [[PyValue.str (strL ['x'])]]⟩ [] [] 1
      [[(strL ['a'], PyValue.str (strL ['x']))]]
      rfl rfl (by decide) rfl (by decide)).1,
    by decide⟩

theorem updateOp_empty_raises (m : DataMode) (st : DBState) (pred : Record) (t : PyStr)
    (lim : Option Nat) (ep : Record) (hep : encodeRecord m pred = some ep) :
    updateOp m st pred [] t lim = .error .dataBaseException := by
  unfold updateOp
  rw [hep]
  simp only [liftO_some, ok_bind]
  rw [show encodeRecord m [] = some [] from rfl]
  simp only [liftO_some, ok_bind]
  rfl

theorem updateOp_status_count (m : DataMode) (st : DBState) (toReplace data : Record)
    (t : PyStr) (lim : Option Nat) (st2 : DBState) (r : DBResponse)
    (h : updateOp m st toReplace data t lim = .ok (st2, r)) :
    ∃ n, r.value = some (.count n) ∧ (r.status = true ↔ 0 < n) := by
  unfold updateOp at h
  cases hep : encodeRecord m toReplace with
  | none => rw [hep] at h; simp at h
  | some ep => ?_
  rw [hep] at h
  simp only [liftO_some, ok_bind] at h
  cases hed : encodeRecord m data with
  | none => rw [hed] at h; simp at h
  | some ed => ?_
  rw [hed] at h
  simp only [liftO_some, ok_bind] at h
  by_cases he : ed.isEmpty
  · rw [if_pos he] at h
    simp at h
  · rw [if_neg he] at h
    cases hT : lookupTable st t with
    | none => rw [hT] at h; simp at h
    | some tb => ?_
    rw [hT] at h
    simp only [liftO_some, ok_bind] at h
    by_cases hc : (ep.all (fun p => decide (p.1 ∈ colNames tb)) &&
        ed.all (fun p => decide (p.1 ∈ colNames tb))) = true
    · rw [if_pos hc] at h
      simp only [pure_eq_ok, Except.ok.injEq, Prod.mk.injEq] at h
      obtain ⟨h1, h2⟩ := h
      refine ⟨(updateRows (colNames tb) ep ed (limVal lim) tb.rows).2, ?_, ?_⟩
      · rw [← h2]
      · rw [← h2]
        simp only [decide_eq_true_eq]
        omega
    · rw [if_neg hc] at h
      simp at h

theorem fetchOp_status_iff_value (m : DataMode) (st : DBState) (pred : Record)
    (t : PyStr) (mode : Nat) (resp : DBResponse)
    (h : fetchOp m st pred t mode = .ok resp) :
    (resp.status = true ↔ resp.value ≠ none) := by
  unfold fetchOp at h
  cases hep : encodeRecord m pred with
  | none => rw [hep] at h; simp at h
  | some ep => ?_
  rw [hep] at h
  simp only [liftO_some, ok_bind] at h
  cases hT : lookupTable st t with
  | none => rw [hT] at h; simp at h
  | some tb => ?_
  rw [hT] at h
  simp only [liftO_some, ok_bind] at h
  by_cases hc : ep.all (fun p => decide (p.1 ∈ colNames tb)) = true
  · rw [if_pos hc] at h
    cases hr : (matchingRows tb ep).mapM (fetchRowDec m tb) with
    | error e => rw [hr] at h; simp at h
    | ok recs => ?_
    rw [hr] at h
    simp only [ok_bind, pure_eq_ok, Except.ok.injEq] at h
    subst h
    cases recs with
    | nil => simp [finishFetch]
    | cons r rest =>
        unfold finishFetch
        dsimp only
        by_cases hm : mode = 1
        · rw [if_pos hm]
          by_cases hrn : r = []
          · subst hrn
            simp
          · simp [hrn]
        · rw [if_neg hm]
          simp
  · rw [if_neg hc] at h
    simp at h

theorem removeOne_status_iff_deleted (m : DataMode) (st : DBState) (pred : Record)
    (t : PyStr) (lim : Option Nat) (st2 : DBState) (r : DBResponse)
    (h : removeOp m st (.one pred) t lim = .ok (st2, r)) :
    (r.status = true ↔ rowCount st2 t < rowCount st t) := by
  unfold removeOp removeOneCore at h
  dsimp only at h
  cases hep : encodeRecord m pred with
  | none => rw [hep] at h; simp at h
  | some ep => ?_
  rw [hep] at h
  simp only [liftO_some, ok_bind] at h
  cases hT : lookupTable st t with
  | none => rw [hT] at h; simp at h
  | some tb => ?_
  rw [hT] at h
  simp only [liftO_some, ok_bind] at h
  by_cases hc : ep.all (fun p => decide (p.1 ∈ colNames tb)) = true
  · rw [if_pos hc] at h
    simp only [pure_eq_ok, Except.ok.injEq, Prod.mk.injEq] at h
    obtain ⟨h1, h2⟩ := h
    have hsplit := deleteRows_split (colNames tb) ep (limVal lim) tb.rows
    rw [← h2, ← h1]
    unfold rowCount
    rw [lookupTable_set st t tb _ hT, hT]
    simp only [decide_eq_true_eq]
    omega
  · rw [if_neg hc] at h
    simp at h

theorem addOp_status_iff_inserted (m : DataMode) (st : DBState) (data : Record)
    (t : PyStr) (st2 : DBState) (r : DBResponse)
    (h : addOp m st data t = .ok (st2, r)) :
    (r.status = true ↔ rowCount st2 t = rowCount st t + 1) := by
  unfold addOp at h
  cases hed : encodeRecord m data with
  | none => rw [hed] at h; simp at h
  | some ed => ?_
  rw [hed] at h
  simp only [liftO_some, ok_bind] at h
  cases hT : lookupTable st t with
  | none => rw [hT] at h; simp at h
  | some tb => ?_
  rw [hT] at h
  simp only [liftO_some, ok_bind] at h
  by_cases htc : add_typecheck data (columnsOf tb) = true
  · rw [if_pos htc] at h
    by_cases hlen : ed.length = tb.cols.length
    · rw [if_pos hlen] at h
      simp only [pure_eq_ok, Except.ok.injEq, Prod.mk.injEq] at h
      obtain ⟨h1, h2⟩ := h
      rw [← h2, ← h1]
      unfold rowCount
      rw [lookupTable_set st t tb _ hT, hT]
      simp
    · rw [if_neg hlen] at h
      simp at h
  · rw [if_neg htc] at h
    simp only [pure_eq_ok, Except.ok.injEq, Prod.mk.injEq] at h
    obtain ⟨h1, h2⟩ := h
    rw [← h2, ← h1]
    simp

/-- C6, counterexample: `remove` with a LIST of predicates always reports
status true with the predicate count as value, even when no row is affected:
the non-matching predicate deletes nothing (the state, one row, is
unchanged) yet the envelope is status=true, value=1. -/
theorem remove_list_status_always_true :
    removeOp DataMode.default
        [(strL ['t'], ⟨[(strL ['a'], tyTEXT)], [[PyValue.str (strL ['x'])]]⟩)]
        (.many [[(strL ['a'], PyValue.str (strL ['z']))]]) (strL ['t']) none =
      .ok ([(strL ['t'], ⟨[(strL ['a'], tyTEXT)], [[PyValue.str (strL ['x'])]]⟩)],
        ⟨true, some (.count 1)⟩) ∧
    rowCount [(strL ['t'], ⟨[(strL ['a'], tyTEXT)], [[PyValue.str (strL ['x'])]]⟩)]
      (strL ['t']) = 1 :=
  ⟨rfl, rfl⟩

/-- C6, amended claim: `update` with an empty new-values dictionary raises
the empty-update `DataBaseException` regardless of the predicate (and before
any table access); and the envelope status is true iff the operation
affected or returned at least one row for `update`, `fetch`, single-record
`add` and single-predicate `remove` — but NOT for `remove` with a list of
predicates, which always reports status true with the number of predicates. -/
theorem status_iff_rows_affected :
    (∀ (m : DataMode) (st : DBState) (pred : Record) (t : PyStr) (lim : Option Nat)
      (ep : Record), encodeRecord m pred = some ep →
      updateOp m st pred [] t lim = .error .dataBaseException) ∧
    (∀ (m : DataMode) (st : DBState) (toReplace data : Record) (t : PyStr)
      (lim : Option Nat) (st2 : DBState) (r : DBResponse),
      updateOp m st toReplace data t lim = .ok (st2, r) →
      ∃ n, r.value = some (.count n) ∧ (r.status = true ↔ 0 < n)) ∧
    (∀ (m : DataMode) (st : DBState) (pred : Record) (t : PyStr) (mode : Nat)
      (resp : DBResponse), fetchOp m st pred t mode = .ok resp →
      (resp.status = true ↔ resp.value ≠ none)) ∧
    (∀ (m : DataMode) (st : DBState) (pred : Record) (t : PyStr) (lim : Option Nat)
      (st2 : DBState) (r : DBResponse),
      removeOp m st (.one pred) t lim = .ok (st2, r) →
      (r.status = true ↔ rowCount st2 t < rowCount st t)) ∧
    (∀ (m : DataMode) (st : DBState) (data : Record) (t : PyStr)
      (st2 : DBState) (r : DBResponse), addOp m st data t = .ok (st2, r) →
      (r.status = true ↔ rowCount st2 t = rowCount st t + 1)) :=
  ⟨updateOp_empty_raises, updateOp_status_count, fetchOp_status_iff_value,
    removeOne_status_iff_deleted, addOp_status_iff_inserted⟩

/-- Witness for `status_iff_rows_affected`, with every conjunct applied at a
concrete input. -/
theorem status_iff_rows_affected_witness :
    updateOp DataMode.default [(strL ['w'], ⟨[(strL ['a'], tyTEXT)], []⟩)]
        [(strL ['a'], PyValue.str (strL ['q']))] [] (strL ['w']) none =
      .error .dataBaseException ∧
    (∃ n, (⟨false, some (.count 0)⟩ : DBResponse).value = some (.count n) ∧
      ((⟨false, some (.count 0)⟩ : DBResponse).status = true ↔ 0 < n)) ∧
    ((⟨false, none⟩ : DBResponse).status = true ↔
      (⟨false, none⟩ : DBResponse).value ≠ none) ∧
    ((⟨false, none⟩ : DBResponse).status = true ↔
      rowCount [(strL ['w'], ⟨[(strL ['a'], tyTEXT)], []⟩)] (strL ['w']) <
        rowCount [(strL ['w'], ⟨[(strL ['a'], tyTEXT)], []⟩)] (strL ['w'])) ∧
    ((⟨true, some (.record [(strL ['a'], PyValue.str (strL ['x']))])⟩ : DBResponse).status =
        true ↔
      rowCount [(strL ['w'], ⟨[(strL ['a'], tyTEXT)], [[PyValue.str (strL ['x'])]]⟩)]
          (strL ['w']) =
        rowCount [(strL ['w'], ⟨[(strL ['a'], tyTEXT)], []⟩)] (strL ['w']) + 1) :=
  ⟨status_iff_rows_affected.1 DataMode.default _ _ _ none _ rfl,
    status_iff_rows_affected.2.1 DataMode.default
      [(strL ['w'], ⟨[(strL ['a'], tyTEXT)], []⟩)]
      [] [(strL ['a'], PyValue.str (strL ['q']))] (strL ['w']) none
      [(strL ['w'], ⟨[(strL ['a'], tyTEXT)], []⟩)] ⟨false, some (.count 0)⟩ rfl,
    status_iff_rows_affected.2.2.1 DataMode.default
      [(strL ['w'], ⟨[(strL ['a'], tyTEXT)], []⟩)] [] (strL ['w']) 1 ⟨false, none⟩ rfl,
    status_iff_rows_affected.2.2.2.1 DataMode.default
      [(strL ['w'], ⟨[(strL ['a'], tyTEXT)], []⟩)] [] (strL ['w']) none
      [(strL ['w'], ⟨[(strL ['a'], tyTEXT)], []⟩)] ⟨false, none⟩ rfl,
    status_iff_rows_affected.2.2.2.2 DataMode.default
      [(strL ['w'], ⟨[(strL ['a'], tyTEXT)], []⟩)] [(strL ['a'], PyValue.str (strL ['x']))]
      (strL ['w'])
      [(strL ['w'], ⟨[(strL ['a'], tyTEXT)], [[PyValue.str (strL ['x'])]]⟩)]
      ⟨true, some (.record [(strL ['a'], PyValue.str (strL ['x']))])⟩ rfl⟩

/-- C7, counterexample: `remove` on a non-matching predicate returns status
false with a NULL value, not an affected count of 0; and supplied inside a
list, the same predicate yields status TRUE with value 1 (the number of
predicates), not status false. -/
theorem remove_nonmatching_cex :
    removeOp DataMode.default
        [(strL ['t'], ⟨[(strL ['a'], tyTEXT)], [[PyValue.str (strL ['x'])]]⟩)]
        (.one [(strL ['a'], PyValue.str (strL ['z']))]) (strL ['t']) none =
      .ok ([(strL ['t'], ⟨[(strL ['a'], tyTEXT)], [[PyValue.str (strL ['x'])]]⟩)],
        ⟨false, none⟩) ∧
    (none : Option RespValue) ≠ some (.count 0) ∧
    removeOp DataMode.default
        [(strL ['t'], ⟨[(strL ['a'], tyTEXT)], [[PyValue.str (strL ['x'])]]⟩)]
        (.many [[(strL ['a'], PyValue.str (strL ['z']))]]) (strL ['t']) none =
      .ok ([(strL ['t'], ⟨[(strL ['a'], tyTEXT)], [[PyValue.str (strL ['x'])]]⟩)],
        ⟨true, some (.count 1)⟩) :=
  ⟨rfl, by decide, rfl⟩

/-- C7, amended claim: `remove` on a predicate matching no rows returns
status false with a null value and leaves the state unchanged, so repeating
the call returns the same result (idempotence); the same predicate supplied
inside a list instead yields status true with the number of predicates as
the value, still leaving the state unchanged. -/
theorem remove_nonmatching_idempotent (m : DataMode) (st : DBState) (t : PyStr)
    (tb : DBTable) (pred ep : Record) (lim : Option Nat)
    (hT : lookupTable st t = some tb)
    (hep : encodeRecord m pred = some ep)
    (hcols : ep.all (fun p => decide (p.1 ∈ colNames tb)) = true)
    (hnm : ∀ r ∈ tb.rows, rowMatchesB (colNames tb) ep r = false) :
    removeOp m st (.one pred) t lim = .ok (st, ⟨false, none⟩) ∧
    removeOp m st (.many [pred]) t lim = .ok (st, ⟨true, some (.count 1)⟩) := by
  have hone : removeOneCore m st pred t lim = .ok (st, ⟨false, none⟩) := by
    unfold removeOneCore
    rw [hep]
    simp only [liftO_some, ok_bind]
    rw [hT]
    simp only [liftO_some, ok_bind]
    rw [if_pos hcols]
    rw [deleteRows_nomatch (colNames tb) ep (limVal lim) tb.rows hnm]
    dsimp only
    rw [setTableRows_self st t tb hT]
    rfl
  constructor
  · exact hone
  · unfold removeOp
    dsimp only
    rw [List.foldlM_cons, hone]
    simp only [Except.map_ok, ok_bind, List.foldlM_nil, pure_eq_ok]
    rfl

/-- Witness for `remove_nonmatching_idempotent` at a concrete one-row
state. -/
theorem remove_nonmatching_idempotent_witness :
    removeOp DataMode.default
        [(strL ['v'], ⟨[(strL ['a'], tyTEXT)], [[PyValue.str (strL ['x'])]]⟩)]
        (.one [(strL ['a'], PyValue.str (strL ['q']))]) (strL ['v']) none =
      .ok ([(strL ['v'], ⟨[(strL ['a'], tyTEXT)], [[PyValue.str (strL ['x'])]]⟩)],
        ⟨false, none⟩) ∧
    removeOp DataMode.default
        [(strL ['v'], ⟨[(strL ['a'], tyTEXT)], [[PyValue.str (strL ['x'])]]⟩)]
        (.many [[(strL ['a'], PyValue.str (strL ['q']))]]) (strL ['v']) none =
      .ok ([(strL ['v'], ⟨[(strL ['a'], tyTEXT)], [[PyValue.str (strL ['x'])]]⟩)],
        ⟨true, some (.count 1)⟩) :=
  remove_nonmatching_idempotent DataMode.default
    [(strL ['v'], ⟨[(strL ['a'], tyTEXT)], [[PyValue.str (strL ['x'])]]⟩)] (strL ['v'])
    ⟨[(strL ['a'], tyTEXT)], [[PyValue.str (strL ['x'])]]⟩
    [(strL ['a'], PyValue.str (strL ['q']))] [(strL ['a'], PyValue.str (strL ['q']))] none
    rfl rfl (by decide) (by decide)

/-- C9: for every record and every table name that does not exist, `add`
fails with `sqlite3.OperationalError` — raised by the eager
`SELECT * FROM name` inside `Table.__init__` — so the intended
`DataBaseException(Table ... does not exist)` at src/AESqlite.py line 222 is
unreachable; the SSqlite variant behaves the same. -/
theorem add_missing_table_operational_error (m : DataMode) (st : DBState)
    (data ed : Record) (t : PyStr)
    (hT : lookupTable st t = none)
    (hed : encodeRecord m data = some ed) :
    addAesOp m st data t = .error .operationalError ∧
    addOp m st data t = .error .operationalError := by
  constructor
  · unfold addAesOp
    rw [hed]
    simp only [liftO_some, ok_bind]
    rw [hT]
    simp only [liftO_none, error_bind]
  · unfold addOp
    rw [hed]
    simp only [liftO_some, ok_bind]
    rw [hT]
    simp only [liftO_none, error_bind]

/-- Witness for `add_missing_table_operational_error` on an empty database. -/
theorem add_missing_table_operational_error_witness :
    addAesOp DataMode.default [] [(strL ['i', 'd'], PyValue.int 1)] (strL ['m']) =
      .error .operationalError ∧
    addOp DataMode.default [] [(strL ['i', 'd'], PyValue.int 1)] (strL ['m']) =
      .error .operationalError :=
  add_missing_table_operational_error DataMode.default []
    [(strL ['i', 'd'], PyValue.int 1)] [(strL ['i', 'd'], PyValue.int 1)] (strL ['m'])
    rfl rfl

/-! ### Database handle construction (`SqliteDatabase.__init__` of both files)

The derived key material (sha512 hexdigest in SSqlite, md5 digest in
AESqlite) is stdlib hashing of the supplied password; the handle model
records the password the key is derived from (present in the SSqlite handle
exactly when the mode is secure; AESqlite additionally stores `aespwd`
unconditionally). Handles are immutable records, so mode and key material
are fixed for the lifetime of the handle by construction. -/

def strDefault : PyStr := strL ['d', 'e', 'f', 'a', 'u', 'l', 't']

def strB64 : PyStr := strL ['b', '6', '4']

def strSecure : PyStr := strL ['s', 'e', 'c', 'u', 'r', 'e']

def strAes : PyStr := strL ['a', 'e', 's']

def strSqliteDb : PyStr := strL ['s', 'q', 'l', 'i', 't', 'e', '.', 'd', 'b']

/-- Model of `str.lower()` (ASCII). -/
def pyLower (s : PyStr) : PyStr := s.map (fun c => if 65 ≤ c ∧ c ≤ 90 then c + 32 else c)

/-- Python truthiness of an optional string argument (`if encpwd:`): an
absent or empty password is falsy. -/
def optTruthy : Option PyStr → Bool
  | some s => decide (s ≠ [])
  | none => false

/-- Model of `dbpath if dbpath else "sqlite.db"`. -/
def optStrOr (o : Option PyStr) (d : PyStr) : PyStr :=
  match o with
  | some s => if s ≠ [] then s else d
  | none => d

/-- A constructed src/SSqlite.py database handle: the lowered data mode, the
password the `Abc` key material was derived from (present iff secure), and
the database path. -/
structure SSqliteHandle where
  datamode : PyStr
  abcPwd : Option PyStr
  dbpath : PyStr
deriving DecidableEq

/-- Model of `SqliteDatabase.__init__` of src/SSqlite.py: lower the mode, assert it is
one of b64/secure/default, in secure mode assert a truthy password (and
derive the key), and assert that a truthy password implies secure mode. -/
def ssqliteInit (dbpath : Option PyStr) (datamode : PyStr) (encpwd : Option PyStr) :
    Except PyErr SSqliteHandle :=
  if pyLower datamode ∈ [strB64, strSecure, strDefault] then
    if pyLower datamode = strSecure ∧ optTruthy encpwd = false then .error .assertionError
    else if optTruthy encpwd = true ∧ pyLower datamode ≠ strSecure then .error .assertionError
    else .ok ⟨pyLower datamode, if pyLower datamode = strSecure then encpwd else none,
      optStrOr dbpath strSqliteDb⟩
  else .error .assertionError

/-- A constructed src/AESqlite.py database handle: the lowered data mode, the
stored password (kept unconditionally; the md5 key is derived from it iff
the mode is aes), and the database path. -/
structure AesHandle where
  datamode : PyStr
  aespwd : Option PyStr
  dbpath : PyStr
deriving DecidableEq

/-- Model of `SqliteDatabase.__init__` of src/AESqlite.py: as the SSqlite constructor
with mode aes in place of secure. -/
def aesInit (dbpath : Option PyStr) (datamode : PyStr) (aespwd : Option PyStr) :
    Except PyErr AesHandle :=
  if pyLower datamode ∈ [strB64, strAes, strDefault] then
    if pyLower datamode = strAes ∧ optTruthy aespwd = false then .error .assertionError
    else if optTruthy aespwd = true ∧ pyLower datamode ≠ strAes then .error .assertionError
    else .ok ⟨pyLower datamode, aespwd, optStrOr dbpath strSqliteDb⟩
  else .error .assertionError

/-- C10: selecting the secure (respectively aes) data mode without a truthy
password fails with an assertion error; supplying a truthy password with any
non-secure (non-aes) mode also fails with an assertion error; and with
consistent arguments construction succeeds, the handle's mode being the
lowered requested mode and its key-derivation password fixed by the
constructor (handles are immutable, so both stay fixed for the handle's
lifetime). -/
theorem constructor_mode_secret_consistency :
    (∀ (p pwd : Option PyStr), optTruthy pwd = false →
      ssqliteInit p strSecure pwd = .error .assertionError) ∧
    (∀ (p : Option PyStr) (dm : PyStr) (pwd : Option PyStr), optTruthy pwd = true →
      pyLower dm ≠ strSecure → ssqliteInit p dm pwd = .error .assertionError) ∧
    (∀ (p : Option PyStr) (dm : PyStr) (pwd : Option PyStr),
      pyLower dm ∈ [strB64, strSecure, strDefault] →
      (pyLower dm = strSecure ↔ optTruthy pwd = true) →
      ssqliteInit p dm pwd =
        .ok ⟨pyLower dm, if pyLower dm = strSecure then pwd else none,
          optStrOr p strSqliteDb⟩) ∧
    (∀ (p pwd : Option PyStr), optTruthy pwd = false →
      aesInit p strAes pwd = .error .assertionError) ∧
    (∀ (p : Option PyStr) (dm : PyStr) (pwd : Option PyStr), optTruthy pwd = true →
      pyLower dm ≠ strAes → aesInit p dm pwd = .error .assertionError) ∧
    (∀ (p : Option PyStr) (dm : PyStr) (pwd : Option PyStr),
      pyLower dm ∈ [strB64, strAes, strDefault] →
      (pyLower dm = strAes ↔ optTruthy pwd = true) →
      aesInit p dm pwd = .ok ⟨pyLower dm, pwd, optStrOr p strSqliteDb⟩) := by
  refine ⟨?_, ?_, ?_, ?_, ?_, ?_⟩
  · intro p pwd h
    unfold ssqliteInit
    rw [if_pos (by decide), if_pos ⟨by decide, h⟩]
  · intro p dm pwd ht hne
    unfold ssqliteInit
    by_cases hmem : pyLower dm ∈ [strB64, strSecure, strDefault]
    · rw [if_pos hmem]
      rw [if_neg (fun hc => by rw [ht] at hc; exact absurd hc.2 (by simp))]
      rw [if_pos ⟨ht, hne⟩]
    · rw [if_neg hmem]
  · intro p dm pwd hmem hiff
    unfold ssqliteInit
    rw [if_pos hmem]
    by_cases hs : pyLower dm = strSecure
    · have ht := hiff.mp hs
      rw [if_neg (fun hc => by rw [ht] at hc; exact absurd hc.2 (by simp))]
      rw [if_neg (fun hc => hc.2 hs)]
    · have ht : optTruthy pwd = false := by
        cases hv : optTruthy pwd with
        | false => rfl
        | true => exact absurd (hiff.mpr hv) hs
      rw [if_neg (fun hc => hs hc.1)]
      rw [if_neg (fun hc => by rw [ht] at hc; exact absurd hc.1 (by simp))]
  · intro p pwd h
    unfold aesInit
    rw [if_pos (by decide), if_pos ⟨by decide, h⟩]
  · intro p dm pwd ht hne
    unfold aesInit
    by_cases hmem : pyLower dm ∈ [strB64, strAes, strDefault]
    · rw [if_pos hmem]
      rw [if_neg (fun hc => by rw [ht] at hc; exact absurd hc.2 (by simp))]
      rw [if_pos ⟨ht, hne⟩]
    · rw [if_neg hmem]
  · intro p dm pwd hmem hiff
    unfold aesInit
    rw [if_pos hmem]
    by_cases hs : pyLower dm = strAes
    · have ht := hiff.mp hs
      rw [if_neg (fun hc => by rw [ht] at hc; exact absurd hc.2 (by simp))]
      rw [if_neg (fun hc => hc.2 hs)]
    · have ht : optTruthy pwd = false := by
        cases hv : optTruthy pwd with
        | false => rfl
        | true => exact absurd (hiff.mpr hv) hs
      rw [if_neg (fun hc => hs hc.1)]
      rw [if_neg (fun hc => by rw [ht] at hc; exact absurd hc.1 (by simp))]

/-- Witness for `constructor_mode_secret_consistency` at concrete arguments:
secure/aes without a password fail, a password with mode b64 fails, and
consistent arguments construct the expected handles. -/
theorem constructor_mode_secret_consistency_witness :
    ssqliteInit none strSecure none = .error .assertionError ∧
    ssqliteInit none strB64 (some (strL ['p'])) = .error .assertionError ∧
    ssqliteInit none strSecure (some (strL ['p'])) =
      .ok ⟨pyLower strSecure, if pyLower strSecure = strSecure then some (strL ['p']) else none,
        optStrOr none strSqliteDb⟩ ∧
    aesInit none strAes none = .error .assertionError ∧
    aesInit none strB64 (some (strL ['p'])) = .error .assertionError ∧
    aesInit none strAes (some (strL ['p'])) =
      .ok ⟨pyLower strAes, some (strL ['p']), optStrOr none strSqliteDb⟩ :=
  ⟨constructor_mode_secret_consistency.1 none none rfl,
    constructor_mode_secret_consistency.2.1 none strB64 (some (strL ['p'])) rfl (by decide),
    constructor_mode_secret_consistency.2.2.1 none strSecure (some (strL ['p'])) (by decide)
      (by decide),
    constructor_mode_secret_consistency.2.2.2.1 none none rfl,
    constructor_mode_secret_consistency.2.2.2.2.1 none strB64 (some (strL ['p'])) rfl
      (by decide),
    constructor_mode_secret_consistency.2.2.2.2.2 none strAes (some (strL ['p'])) (by decide)
      (by decide)⟩
